import Mathlib

/-!
Verification development for the save-file-attrs utility
(`save-file-attrs.py`, `win_utils/set_times.py`).

The Python source is shallowly embedded: timestamps that the program stores
either as nanosecond integers or as floating-point seconds are modelled as an
inductive `TsVal` over `Int` and `ℚ` (floating-point values are modelled as
exact rationals; claims here concern unit handling, not rounding).  The
filesystem is a function from path strings to optional entries.  OS mutation
calls (`os.chown`, `os.chmod`, `os.utime`, `SetFileTime`, `SetFileAttributesW`)
are recorded in a trace instead of being performed.
-/

/-- Exit code `SUCCESS` of the program. -/
def SUCCESS : Int := 0

/-- Exit code `GENERIC_ERROR` of the program. -/
def GENERIC_ERROR : Int := 2

/-- Exit code `FILE_RELATED` of the program. -/
def FILE_RELATED : Int := 3

/-- Exit code `ATTRIB_FILE_RELATED` of the program. -/
def ATTRIB_FILE_RELATED : Int := 10

/-- The two values of `SYSTEM_PLATFORM` the program distinguishes
(`"windows"` vs everything else). -/
inductive Plat where
  | windows
  | posix
deriving DecidableEq

/-- A stored or live timestamp value: Python `int` (nanoseconds) or
Python `float` (seconds, modelled as an exact rational). -/
inductive TsVal where
  | intNs (n : Int)
  | floatSec (q : ℚ)
deriving DecidableEq

/-- Raw numeric value of a timestamp, ignoring its unit: this is what Python
sees when it applies `!=`, `>` or arithmetic directly to the stored number. -/
def tsRaw : TsVal → ℚ
  | .intNs n => (n : ℚ)
  | .floatSec q => q

/-- Python `type(x) is int` on a stored timestamp. -/
def TsVal.isInt : TsVal → Bool
  | .intNs _ => true
  | .floatSec _ => false

/-- Exact rational subtraction written through `mkRat` so that it evaluates
by reduction (the library's `Rat.sub` is irreducible); `qSub_eq` identifies
it with the usual subtraction. -/
def qSub (a b : ℚ) : ℚ := mkRat (a.num * b.den - b.num * a.den) (a.den * b.den)

/-- Exact rational multiplication written through `mkRat`; `qMul_eq`
identifies it with the usual multiplication. -/
def qMul (a b : ℚ) : ℚ := mkRat (a.num * b.num) (a.den * b.den)

theorem qSub_eq (a b : ℚ) : qSub a b = a - b := by
  unfold qSub
  rw [Rat.mkRat_eq_div]
  have ha : ((a.den : ℚ)) ≠ 0 := by exact_mod_cast a.den_nz
  have hb : ((b.den : ℚ)) ≠ 0 := by exact_mod_cast b.den_nz
  push_cast
  conv_rhs => rw [← Rat.num_div_den a, ← Rat.num_div_den b]
  field_simp
  ring

theorem qMul_eq (a b : ℚ) : qMul a b = a * b := by
  unfold qMul
  rw [Rat.mkRat_eq_div]
  have ha : ((a.den : ℚ)) ≠ 0 := by exact_mod_cast a.den_nz
  have hb : ((b.den : ℚ)) ≠ 0 := by exact_mod_cast b.den_nz
  push_cast
  conv_rhs => rw [← Rat.num_div_den a, ← Rat.num_div_den b]
  field_simp

/-- The conversion performed at the top of `timestamp_changed`: a float
operand is multiplied by 1 000 000 000, an int operand is used as is, so both
end up in nanosecond space. -/
def toNs : TsVal → ℚ
  | .intNs n => (n : ℚ)
  | .floatSec q => qMul q 1000000000

theorem toNs_floatSec (q : ℚ) : toNs (.floatSec q) = q * 1000000000 := by
  show qMul q 1000000000 = _
  rw [qMul_eq]

/-- Python `abs` on a rational (kept as an executable conditional). -/
def pyAbs (q : ℚ) : ℚ := if q < 0 then -q else q

theorem pyAbs_eq_abs (q : ℚ) : pyAbs q = |q| := by
  unfold pyAbs
  by_cases h : q < 0
  · rw [if_pos h, abs_of_neg h]
  · rw [if_neg h, abs_of_nonneg (le_of_not_lt h)]

/-- Embedding of `timestamp_changed` (save-file-attrs.py lines 459-470):
float operands are scaled to nanoseconds, then Windows compares with a ±300
tolerance while POSIX compares exactly. -/
def timestamp_changed (plat : Plat) (timestamp_1 timestamp_2 : TsVal) : Bool :=
  let t1 := toNs timestamp_1
  let t2 := toNs timestamp_2
  match plat with
  | .windows => decide (300 < pyAbs (qSub t1 t2))
  | .posix => decide (t1 ≠ t2)

/-- Python `stored != other` on two optional timestamp fields (`None` compares
unequal to any number; numbers compare by exact value). -/
def pyNeOpt : Option TsVal → Option TsVal → Bool
  | none, none => false
  | none, some _ => true
  | some _, none => true
  | some a, some b => decide (tsRaw a ≠ tsRaw b)

/-- Python `stored_data.ctime > 0` on a stored timestamp. -/
def tsPos (t : TsVal) : Bool := decide (0 < tsRaw t)

/-- The fields of an `os.stat_result` that the program reads.  Nanosecond
fields are integers; the float `st_mtime`/`st_atime`/`st_ctime` seconds are
separate fields (the program never assumes a relation between the two views). -/
structure StatInfo where
  st_mtime_ns : Int
  st_atime_ns : Int
  st_birthtime_ns : Int
  st_mtime_s : ℚ
  st_atime_s : ℚ
  st_ctime_s : ℚ
  st_mode : Int
  st_uid : Int
  st_gid : Int
  st_file_attributes : Nat
deriving DecidableEq

/-- A live filesystem entry at restore time.  The three failure switches model
the OS calls that can fail for this path: `mutationFails` makes
`os.chown`/`os.chmod`/`os.utime` raise `OSError`, `winAttrFails` makes
`Get/SetFileAttributesW` fail, `setTimesFails` makes the `SetFileTime` helper
raise the `WindowsError` that `set_timestamps` catches. -/
structure FsEntry where
  stat : StatInfo
  isLink : Bool
  isDir : Bool
  mutationFails : Bool
  winAttrFails : Bool
  setTimesFails : Bool
deriving DecidableEq

/-- One JSON object of the snapshot file, before pydantic validation: each of
the ten recognised keys is present (with a well-typed value) or absent. -/
structure RawRecord where
  atime : Option TsVal
  mtime : Option TsVal
  ctime : Option TsVal
  mode : Option Int
  uid : Option Int
  gid : Option Int
  archive : Option Bool
  hidden : Option Bool
  readonly : Option Bool
  system : Option Bool
deriving DecidableEq

/-- Validated `AttrData` (POSIX shape, save-file-attrs.py lines 72-79). -/
structure AttrData where
  atime : TsVal
  mtime : TsVal
  ctime : TsVal
  mode : Int
  uid : Int
  gid : Int
deriving DecidableEq

/-- Validated `WinAttrData` (Windows shape, lines 81-89). -/
structure WinAttrData where
  atime : TsVal
  mtime : TsVal
  ctime : TsVal
  archive : Bool
  hidden : Bool
  readonly : Bool
  system : Bool
deriving DecidableEq

/-- Validated `OldWinAttrData` (legacy combined shape, lines 91-101). -/
structure OldWinAttrData where
  atime : TsVal
  mtime : TsVal
  ctime : TsVal
  mode : Int
  uid : Int
  gid : Int
  archive : Bool
  hidden : Bool
  readonly : Bool
  system : Bool
deriving DecidableEq

/-- The union `AttrData | WinAttrData | OldWinAttrData` produced by the
validation cascade in `apply_file_attrs` (lines 499-510). -/
inductive ParsedAttr where
  | posix (a : AttrData)
  | win (w : WinAttrData)
  | oldwin (o : OldWinAttrData)
deriving DecidableEq

/-- Pydantic `AttrData.model_validate`: all six POSIX keys must be present;
extra keys are ignored (pydantic's default `extra='ignore'`). -/
def validateAttrData (r : RawRecord) : Option AttrData :=
  match r.atime, r.mtime, r.ctime, r.mode, r.uid, r.gid with
  | some a, some m, some c, some md, some u, some g =>
      some { atime := a, mtime := m, ctime := c, mode := md, uid := u, gid := g }
  | _, _, _, _, _, _ => none

/-- Pydantic `WinAttrData.model_validate`: timestamps plus all four flags. -/
def validateWinAttrData (r : RawRecord) : Option WinAttrData :=
  match r.atime, r.mtime, r.ctime, r.archive, r.hidden, r.readonly, r.system with
  | some a, some m, some c, some ar, some h, some ro, some sy =>
      some { atime := a, mtime := m, ctime := c,
             archive := ar, hidden := h, readonly := ro, system := sy }
  | _, _, _, _, _, _, _ => none

/-- Pydantic `OldWinAttrData.model_validate`: all ten keys. -/
def validateOldWinAttrData (r : RawRecord) : Option OldWinAttrData :=
  match validateAttrData r, validateWinAttrData r with
  | some a, some w =>
      some { atime := a.atime, mtime := a.mtime, ctime := a.ctime,
             mode := a.mode, uid := a.uid, gid := a.gid,
             archive := w.archive, hidden := w.hidden,
             readonly := w.readonly, system := w.system }
  | _, _ => none

/-- The try/except cascade of `apply_file_attrs` (lines 500-510): try
`AttrData`, then `WinAttrData`, then `OldWinAttrData`; `none` means all three
raised `ValidationError` (the program prints "Attribute file is corrupt" and
exits with `ATTRIB_FILE_RELATED`). -/
def validateRecord (r : RawRecord) : Option ParsedAttr :=
  match validateAttrData r with
  | some a => some (.posix a)
  | none =>
    match validateWinAttrData r with
    | some w => some (.win w)
    | none =>
      match validateOldWinAttrData r with
      | some o => some (.oldwin o)
      | none => none

/-- Stored atime of a parsed record (`attr.atime`). -/
def ParsedAttr.atimeOf : ParsedAttr → TsVal
  | .posix a => a.atime
  | .win w => w.atime
  | .oldwin o => o.atime

/-- Stored mtime of a parsed record (`attr.mtime`). -/
def ParsedAttr.mtimeOf : ParsedAttr → TsVal
  | .posix a => a.mtime
  | .win w => w.mtime
  | .oldwin o => o.mtime

/-- Stored ctime of a parsed record (`attr.ctime`). -/
def ParsedAttr.ctimeOf : ParsedAttr → TsVal
  | .posix a => a.ctime
  | .win w => w.ctime
  | .oldwin o => o.ctime

/-- Windows file-attribute bit constants from the `stat` module. -/
def FILE_ATTRIBUTE_ARCHIVE : Nat := 32

/-- Windows hidden-attribute bit. -/
def FILE_ATTRIBUTE_HIDDEN : Nat := 2

/-- Windows readonly-attribute bit. -/
def FILE_ATTRIBUTE_READONLY : Nat := 1

/-- Windows system-attribute bit. -/
def FILE_ATTRIBUTE_SYSTEM : Nat := 4

/-- Embedding of `get_attrs` (lines 373-397): capture one entry's metadata.
Timestamps are taken from the nanosecond stat fields (so they are stored as
integers); on Windows the four boolean flags are read from the attribute
bitmask, on POSIX mode/uid/gid are stored.  The result is the `model_dump`
dictionary, i.e. a raw record with exactly the shape's keys present. -/
def get_attrs (plat : Plat) (st : StatInfo) : RawRecord :=
  match plat with
  | .windows =>
      { atime := some (.intNs st.st_atime_ns),
        mtime := some (.intNs st.st_mtime_ns),
        ctime := some (.intNs st.st_birthtime_ns),
        mode := none, uid := none, gid := none,
        archive := some (decide (st.st_file_attributes &&& FILE_ATTRIBUTE_ARCHIVE ≠ 0)),
        hidden := some (decide (st.st_file_attributes &&& FILE_ATTRIBUTE_HIDDEN ≠ 0)),
        readonly := some (decide (st.st_file_attributes &&& FILE_ATTRIBUTE_READONLY ≠ 0)),
        system := some (decide (st.st_file_attributes &&& FILE_ATTRIBUTE_SYSTEM ≠ 0)) }
  | .posix =>
      { atime := some (.intNs st.st_atime_ns),
        mtime := some (.intNs st.st_mtime_ns),
        ctime := some (.intNs st.st_birthtime_ns),
        mode := some st.st_mode, uid := some st.st_uid, gid := some st.st_gid,
        archive := none, hidden := none, readonly := none, system := none }

/-- Embedding of the pydantic `ResultAttr` model (lines 49-69): every value
field defaults to `None` and every `*_changed` field defaults to `False`. -/
structure ResultAttr where
  atime : Option TsVal := none
  mtime : Option TsVal := none
  ctime : Option TsVal := none
  mode : Option Int := none
  uid : Option Int := none
  gid : Option Int := none
  archive : Option Bool := none
  hidden : Option Bool := none
  readonly : Option Bool := none
  system : Option Bool := none
  mode_changed : Bool := false
  atime_changed : Bool := false
  mtime_changed : Bool := false
  ctime_changed : Bool := false
  uid_changed : Bool := false
  gid_changed : Bool := false
  archive_changed : Bool := false
  readonly_changed : Bool := false
  system_changed : Bool := false
  hidden_changed : Bool := false
deriving DecidableEq

/-- Embedding of `get_attr_for_restore` (lines 400-456).  The comparison unit
is selected from the Python type of the stored mtime: an `int` selects the
nanosecond stat fields (`st_mtime_ns`/`st_atime_ns`/`st_birthtime_ns`), a
`float` selects the float seconds fields (`st_mtime`/`st_atime`/`st_ctime`).
On Windows the stored ctime and, for non-`AttrData` shapes, the four boolean
flags are also compared; on POSIX mode/uid/gid are compared for `AttrData`
and `OldWinAttrData` shapes. -/
def get_attr_for_restore (plat : Plat) (attr : ParsedAttr) (st : StatInfo)
    (skip_creation : Bool) : ResultAttr :=
  let d0 : ResultAttr := { atime := some attr.atimeOf, mtime := some attr.mtimeOf }
  let useNs := attr.mtimeOf.isInt
  let liveA := if useNs then TsVal.intNs st.st_atime_ns else TsVal.floatSec st.st_atime_s
  let liveM := if useNs then TsVal.intNs st.st_mtime_ns else TsVal.floatSec st.st_mtime_s
  let liveC := if useNs then TsVal.intNs st.st_birthtime_ns else TsVal.floatSec st.st_ctime_s
  let d1 := { d0 with
    atime_changed := timestamp_changed plat liveA attr.atimeOf,
    mtime_changed := timestamp_changed plat liveM attr.mtimeOf }
  match plat with
  | .windows =>
    let d2 := { d1 with ctime := some attr.ctimeOf }
    let d3 := if !skip_creation && tsPos attr.ctimeOf then
        { d2 with ctime_changed := timestamp_changed .windows liveC attr.ctimeOf }
      else d2
    match attr with
    | .posix _ => d3
    | .win w =>
      let curArchive := decide (st.st_file_attributes &&& FILE_ATTRIBUTE_ARCHIVE ≠ 0)
      let curHidden := decide (st.st_file_attributes &&& FILE_ATTRIBUTE_HIDDEN ≠ 0)
      let curReadonly := decide (st.st_file_attributes &&& FILE_ATTRIBUTE_READONLY ≠ 0)
      let curSystem := decide (st.st_file_attributes &&& FILE_ATTRIBUTE_SYSTEM ≠ 0)
      { d3 with
        archive := some w.archive, hidden := some w.hidden,
        readonly := some w.readonly, system := some w.system,
        archive_changed := curArchive != w.archive,
        hidden_changed := curHidden != w.hidden,
        readonly_changed := curReadonly != w.readonly,
        system_changed := curSystem != w.system }
    | .oldwin o =>
      let curArchive := decide (st.st_file_attributes &&& FILE_ATTRIBUTE_ARCHIVE ≠ 0)
      let curHidden := decide (st.st_file_attributes &&& FILE_ATTRIBUTE_HIDDEN ≠ 0)
      let curReadonly := decide (st.st_file_attributes &&& FILE_ATTRIBUTE_READONLY ≠ 0)
      let curSystem := decide (st.st_file_attributes &&& FILE_ATTRIBUTE_SYSTEM ≠ 0)
      { d3 with
        archive := some o.archive, hidden := some o.hidden,
        readonly := some o.readonly, system := some o.system,
        archive_changed := curArchive != o.archive,
        hidden_changed := curHidden != o.hidden,
        readonly_changed := curReadonly != o.readonly,
        system_changed := curSystem != o.system }
  | .posix =>
    match attr with
    | .posix a =>
      { d1 with
        uid := some a.uid, gid := some a.gid, mode := some a.mode,
        mode_changed := decide (st.st_mode ≠ a.mode),
        uid_changed := decide (st.st_uid ≠ a.uid),
        gid_changed := decide (st.st_gid ≠ a.gid) }
    | .oldwin o =>
      { d1 with
        uid := some o.uid, gid := some o.gid, mode := some o.mode,
        mode_changed := decide (st.st_mode ≠ o.mode),
        uid_changed := decide (st.st_uid ≠ o.uid),
        gid_changed := decide (st.st_gid ≠ o.gid) }
    | .win _ => d1

/-- One successful OS mutation recorded during restore.  `utimeNs` is
`os.utime(path, ns=(atime, mtime))`, `utimeS` is `os.utime(path, (atime,
mtime))` with the raw numeric values Python would pass, `setFileTimes` is the
`win_utils.set_times` helper, `setWinAttrs` is `SetFileAttributesW` with the
final bitmask. -/
inductive MutationCall where
  | chown (path : String) (uid gid : Int)
  | chmod (path : String) (mode : Int)
  | utimeNs (path : String) (atime mtime : Int)
  | utimeS (path : String) (atime mtime : ℚ)
  | setFileTimes (path : String) (ctime mtime atime : Option TsVal)
  | setWinAttrs (path : String) (value : Nat)
deriving DecidableEq

/-- Path argument of a recorded mutation call. -/
def MutationCall.pathOf : MutationCall → String
  | .chown p _ _ => p
  | .chmod p _ => p
  | .utimeNs p _ _ => p
  | .utimeS p _ _ => p
  | .setFileTimes p _ _ _ => p
  | .setWinAttrs p _ => p

/-- Path of a call if it is a Windows flag write (`SetFileAttributesW`). -/
def MutationCall.winFlagPath : MutationCall → Option String
  | .setWinAttrs p _ => some p
  | _ => none

/-- Outcome of one helper (`set_uid_gid`, `set_permissions`,
`process_win_attributes`, `set_timestamps`, `copy_creation_to_accessed`):
either an uncaught `TypeError` (`crash`), an `OSError` that the per-item
handler of `apply_file_attrs` catches (`raised`), or a normal return carrying
the boolean result, the successful mutation calls, the paths appended to the
error list, and the (possibly re-read) `stored_data`. -/
inductive SubOutcome where
  | crash
  | raised
  | ok (changed : Bool) (calls : List MutationCall) (errs : List String)
      (stored : ResultAttr)

/-- Embedding of `set_uid_gid` (lines 737-759): POSIX only; one `os.chown`
call when the stored uid or gid differs. -/
def set_uid_gid (entry : FsEntry) (k : String) (stored : ResultAttr)
    (skip_owner : Bool) : SubOutcome :=
  if skip_owner then .ok false [] [] stored
  else if stored.uid_changed || stored.gid_changed then
    if entry.mutationFails then .raised
    else .ok true [.chown k (stored.uid.getD 0) (stored.gid.getD 0)] [] stored
  else .ok false [] [] stored

/-- Embedding of `set_permissions` (lines 762-779): POSIX only; one
`os.chmod` call when the stored mode differs. -/
def set_permissions (entry : FsEntry) (k : String) (stored : ResultAttr)
    (skip_permissions : Bool) : SubOutcome :=
  if skip_permissions then .ok false [] [] stored
  else if stored.mode_changed then
    if entry.mutationFails then .raised
    else .ok true [.chmod k (stored.mode.getD 0)] [] stored
  else .ok false [] [] stored

/-- Python `a & ~b` for the nonnegative attribute masks: clear in `a` every
bit of `b`. -/
def clearMask (a b : Nat) : Nat := a - (a &&& b)

/-- Embedding of `process_win_attributes` together with `modify_win_attribs`
(lines 680-734 and 782-799): build set/unset masks from the changed,
non-skipped flags; when any flag changed, one combined
`GetFileAttributesW`/`SetFileAttributesW` round-trip is attempted.  A failing
round-trip appends the path to the error list but the function still returns
`True`. -/
def process_win_attributes (entry : FsEntry) (k : String) (stored : ResultAttr)
    (skip_archive skip_hidden skip_readonly skip_system : Bool) : SubOutcome :=
  let aC := stored.archive_changed && !skip_archive
  let hC := stored.hidden_changed && !skip_hidden
  let rC := stored.readonly_changed && !skip_readonly
  let sC := stored.system_changed && !skip_system
  let setMask :=
    (if aC && stored.archive.getD false then FILE_ATTRIBUTE_ARCHIVE else 0) |||
    (if hC && stored.hidden.getD false then FILE_ATTRIBUTE_HIDDEN else 0) |||
    (if rC && stored.readonly.getD false then FILE_ATTRIBUTE_READONLY else 0) |||
    (if sC && stored.system.getD false then FILE_ATTRIBUTE_SYSTEM else 0)
  let unsetMask :=
    (if aC && !(stored.archive.getD false) then FILE_ATTRIBUTE_ARCHIVE else 0) |||
    (if hC && !(stored.hidden.getD false) then FILE_ATTRIBUTE_HIDDEN else 0) |||
    (if rC && !(stored.readonly.getD false) then FILE_ATTRIBUTE_READONLY else 0) |||
    (if sC && !(stored.system.getD false) then FILE_ATTRIBUTE_SYSTEM else 0)
  if aC || hC || rC || sC then
    if entry.winAttrFails then .ok true [] [k] stored
    else .ok true
      [.setWinAttrs k (clearMask (entry.stat.st_file_attributes ||| setMask) unsetMask)]
      [] stored
  else .ok false [] [] stored

/-- Embedding of `set_timestamps` (lines 594-663).  On Windows one
`set_times` call is attempted (its `WindowsError` is caught and swallowed);
on POSIX one `os.utime` call is made when mtime or atime changed, re-reading
the live value of a skipped component first.  In the nanosecond form Python's
`os.utime(ns=...)` raises an uncaught `TypeError` when a float slips into the
tuple. -/
def set_timestamps (plat : Plat) (entry : FsEntry) (k : String)
    (stored : ResultAttr) (skip_modified skip_creation skip_accessed : Bool) :
    SubOutcome :=
  if skip_creation && skip_accessed && skip_modified then .ok false [] [] stored
  else
    let cM := stored.mtime_changed && !skip_modified
    let cA := stored.atime_changed && !skip_accessed
    let cC := stored.ctime_changed && !skip_creation
    if cM || cA || cC then
      match plat with
      | .windows =>
        let nc := if !skip_creation && stored.ctime_changed then stored.ctime else none
        let nm := if !skip_modified && stored.mtime_changed then stored.mtime else none
        let na := if !skip_accessed && stored.atime_changed then stored.atime else none
        if entry.setTimesFails then .ok true [] [] stored
        else .ok true [.setFileTimes k nc nm na] [] stored
      | .posix =>
        if !(skip_modified && skip_accessed) then
          if stored.mtime_changed || stored.atime_changed then
            match stored.mtime with
            | some (.intNs mv0) =>
              let mv := if skip_modified then entry.stat.st_mtime_ns else mv0
              let av? := if skip_accessed then some (TsVal.intNs entry.stat.st_atime_ns)
                         else stored.atime
              match av? with
              | some (.intNs av) =>
                if entry.mutationFails then .raised
                else .ok true [.utimeNs k av mv]
                  [] { stored with mtime := some (.intNs mv), atime := some (.intNs av) }
              | _ => .crash
            | some (.floatSec mq0) =>
              let mq := if skip_modified then entry.stat.st_mtime_s else mq0
              let av? := if skip_accessed then some (TsVal.floatSec entry.stat.st_atime_s)
                         else stored.atime
              match av? with
              | some av =>
                if entry.mutationFails then .raised
                else .ok true [.utimeS k (tsRaw av) mq]
                  [] { stored with mtime := some (.floatSec mq), atime := some av }
              | none => .crash
            | none => .crash
          else .ok true [] [] stored
        else .ok true [] [] stored
    else .ok false [] [] stored

/-- Embedding of `copy_creation_to_accessed` (lines 666-677): when the flag
is set and the stored ctime compares unequal (by Python `!=`) to the stored
atime, one extra `os.utime` copies the creation time into the accessed slot.
A `None` stored ctime — which is what every POSIX restore produces, since
`get_attr_for_restore` only assigns `ctime` on Windows — or a float in the
nanosecond tuple makes `os.utime` raise an uncaught `TypeError`. -/
def copy_creation_to_accessed (entry : FsEntry) (k : String)
    (stored : ResultAttr) (copy_to_access : Bool) : SubOutcome :=
  if copy_to_access && pyNeOpt stored.ctime stored.atime then
    match stored.mtime with
    | some (.intNs mv) =>
      match stored.ctime with
      | some (.intNs cv) =>
        if entry.mutationFails then .raised
        else .ok true [.utimeNs k cv mv] [] stored
      | _ => .crash
    | some (.floatSec mq) =>
      match stored.ctime with
      | some c =>
        if entry.mutationFails then .raised
        else .ok true [.utimeS k (tsRaw c) mq] [] stored
      | none => .crash
    | none => .crash
  else .ok false [] [] stored

/-- Result of processing one snapshot key inside the restore loop:
`skipped` (non-existent, excluded, or unsupported symlink), `abortAttr`
(validation failed, `sys.exit(ATTRIB_FILE_RELATED)`), `crash` (uncaught
`TypeError`), or `done` with the item's successful calls, its contribution to
the `processed` flag, and the paths it appended to the error list. -/
inductive ItemStep where
  | skipped
  | abortAttr
  | crash (calls : List MutationCall) (errs : List String)
  | done (calls : List MutationCall) (changed : Bool) (errs : List String)
deriving DecidableEq

/-- Sequence one helper call inside the per-item body: an `OSError` ends the
item with the path appended to the error list (keeping earlier calls and the
`processed` contributions already made), an uncaught `TypeError` ends the
whole run. -/
def SubOutcome.andThen (k : String) (calls : List MutationCall) (changed : Bool)
    (errs : List String) (s : SubOutcome)
    (next : List MutationCall → Bool → List String → ResultAttr → ItemStep) :
    ItemStep :=
  match s with
  | .crash => .crash calls errs
  | .raised => .done calls changed (errs ++ [k])
  | .ok b cs es st => next (calls ++ cs) (changed || b) (errs ++ es) st

/-- The semantically relevant part of `RestoreConfig` plus the compiled
exclusion rules.  The matcher stands for `compiled_rules.match_file`;
`none` models `compile_ignore_rules` returning `None`. -/
structure RestoreCfg where
  matcher : Option (String → Bool) := none
  exclusions_ignore_case : Bool := false
  copy_to_access : Bool := false
  skip_permissions : Bool := false
  skip_owner : Bool := false
  skip_archive : Bool := false
  skip_hidden : Bool := false
  skip_readonly : Bool := false
  skip_system : Bool := false
  skip_modified : Bool := false
  skip_creation : Bool := false
  skip_accessed : Bool := false
  skip_links : Bool := false

/-- The exclusion test of `apply_file_attrs` (lines 512-523): append a
trailing separator for directories, lower-case when requested, then match.
(The `os.path.relpath` normalisation against the working directory is path
plumbing and is modelled as the identity.) -/
def excludedAtRestore (cfg : RestoreCfg) (entry : FsEntry) (k : String) : Bool :=
  match cfg.matcher with
  | none => false
  | some m =>
    let c := k ++ (if entry.isDir then "/" else "")
    m (if cfg.exclusions_ignore_case then c.toLower else c)

/-- The body of the restore loop for one snapshot key (lines 493-580):
existence check, shape validation, exclusion check, symlink gate, then the
platform-appropriate helper chain (ownership and permissions on POSIX, flag
group on Windows when the flag group is known, then timestamps, then the
creation-to-accessed copy). -/
def processItem (plat : Plat) (utimeNoFollow : Bool) (cfg : RestoreCfg)
    (fs : String → Option FsEntry) (k : String) (r : RawRecord) : ItemStep :=
  match fs k with
  | none => .skipped
  | some entry =>
    match validateRecord r with
    | none => .abortAttr
    | some attr =>
      if excludedAtRestore cfg entry k then .skipped
      else
        let stored := get_attr_for_restore plat attr entry.stat cfg.skip_creation
        let symSupport := utimeNoFollow || plat == .windows
        if !entry.isLink || (entry.isLink && symSupport && !cfg.skip_links) then
          match plat with
          | .posix =>
            SubOutcome.andThen k [] false []
              (set_uid_gid entry k stored cfg.skip_owner) (fun c1 b1 e1 st1 =>
            SubOutcome.andThen k c1 b1 e1
              (set_permissions entry k st1 cfg.skip_permissions) (fun c2 b2 e2 st2 =>
            SubOutcome.andThen k c2 b2 e2
              (set_timestamps .posix entry k st2 cfg.skip_modified cfg.skip_creation
                cfg.skip_accessed) (fun c3 b3 e3 st3 =>
            SubOutcome.andThen k c3 b3 e3
              (copy_creation_to_accessed entry k st3 cfg.copy_to_access)
              (fun c4 b4 e4 _ => .done c4 b4 e4))))
          | .windows =>
            SubOutcome.andThen k [] false []
              (if stored.archive.isSome then
                process_win_attributes entry k stored cfg.skip_archive cfg.skip_hidden
                  cfg.skip_readonly cfg.skip_system
               else .ok false [] [] stored) (fun c1 b1 e1 st1 =>
            SubOutcome.andThen k c1 b1 e1
              (set_timestamps .windows entry k st1 cfg.skip_modified cfg.skip_creation
                cfg.skip_accessed) (fun c2 b2 e2 st2 =>
            SubOutcome.andThen k c2 b2 e2
              (copy_creation_to_accessed entry k st2 cfg.copy_to_access)
              (fun c3 b3 e3 _ => .done c3 b3 e3)))
        else .skipped

/-- Successful mutation calls of a loop step. -/
def ItemStep.callsOf : ItemStep → List MutationCall
  | .skipped => []
  | .abortAttr => []
  | .crash cs _ => cs
  | .done cs _ _ => cs

/-- Error-list additions of a loop step. -/
def ItemStep.errsOf : ItemStep → List String
  | .skipped => []
  | .abortAttr => []
  | .crash _ es => es
  | .done _ _ es => es

/-- Contribution of a loop step to the `processed` flag. -/
def ItemStep.changedOf : ItemStep → Bool
  | .done _ b _ => b
  | _ => false

/-- Whether a loop step terminates the whole run early. -/
def ItemStep.isFatal : ItemStep → Bool
  | .abortAttr => true
  | .crash _ _ => true
  | _ => false

/-- How a run of the restore loop ends: `sys.exit(code)` or an uncaught
Python exception. -/
inductive RunExit where
  | exited (code : Int)
  | uncaught
deriving DecidableEq

/-- Mutable state threaded through the restore loop: the call trace, the
`errored` list, the `processed` flag, and whether the loop was cut short. -/
structure ApplyState where
  calls : List MutationCall
  errored : List String
  processed : Bool
  halted : Option RunExit
deriving DecidableEq

/-- First record stored under a key (dict lookup `attrs[item_path]`). -/
def lookupRec (attrs : List (String × RawRecord)) (k : String) : Option RawRecord :=
  match attrs with
  | [] => none
  | (p, r) :: rest => if p = k then some r else lookupRec rest k

/-- Lexicographic comparison of character lists (executable form of the
code-point order Python's `sorted` uses on strings). -/
def charsLe : List Char → List Char → Bool
  | [], _ => true
  | _ :: _, [] => false
  | a :: as, b :: bs =>
    if a < b then true else if b < a then false else charsLe as bs

/-- Lexicographic string order on the underlying character lists. -/
def strLe (a b : String) : Bool := charsLe a.data b.data

/-- Insert a string into a sorted list (helper for `sortStrings`). -/
def insertSorted (s : String) : List String → List String
  | [] => [s]
  | t :: ts => if strLe s t then s :: t :: ts else t :: insertSorted s ts

/-- Python `sorted` on the snapshot's keys (insertion sort; the order is the
lexicographic string order, which is all that matters here). -/
def sortStrings : List String → List String
  | [] => []
  | s :: ss => insertSorted s (sortStrings ss)

/-- The step function of the restore loop: look the key up in the snapshot
and process it. -/
def restoreStep (plat : Plat) (utimeNoFollow : Bool) (cfg : RestoreCfg)
    (fs : String → Option FsEntry) (attrs : List (String × RawRecord))
    (k : String) : ItemStep :=
  match lookupRec attrs k with
  | none => .skipped
  | some r => processItem plat utimeNoFollow cfg fs k r

/-- The `for item_path in sorted(attrs)` loop of `apply_file_attrs`:
accumulate calls, errors and the `processed` flag; a fatal step stops the
iteration. -/
def applyLoop (step : String → ItemStep) : List String → ApplyState → ApplyState
  | [], st => st
  | k :: ks, st =>
    match step k with
    | .skipped => applyLoop step ks st
    | .abortAttr => { st with halted := some (.exited ATTRIB_FILE_RELATED) }
    | .crash cs es =>
      { st with calls := st.calls ++ cs, errored := st.errored ++ es,
                halted := some .uncaught }
    | .done cs b es =>
      applyLoop step ks
        { st with calls := st.calls ++ cs, processed := st.processed || b,
                  errored := st.errored ++ es }

/-- Observable outcome of `apply_file_attrs`: the OS mutation trace, the
final error list, the `processed` flag, whether "Nothing to change." was
printed, and how the process ended. -/
structure ApplyResult where
  calls : List MutationCall
  errored : List String
  processed : Bool
  printedNothing : Bool
  exit : RunExit
deriving DecidableEq

/-- Embedding of `apply_file_attrs` (lines 473-591): iterate the snapshot
keys in sorted order, then report: a non-empty error list exits with
`GENERIC_ERROR` after the full pass, otherwise "Nothing to change." is
printed when no attribute was touched, and the process exits with
`SUCCESS`. -/
def apply_file_attrs (plat : Plat) (utimeNoFollow : Bool)
    (fs : String → Option FsEntry) (attrs : List (String × RawRecord))
    (cfg : RestoreCfg) : ApplyResult :=
  let step := restoreStep plat utimeNoFollow cfg fs attrs
  let st := applyLoop step (sortStrings (attrs.map Prod.fst))
    { calls := [], errored := [], processed := false, halted := none }
  match st.halted with
  | some h =>
    { calls := st.calls, errored := st.errored, processed := st.processed,
      printedNothing := false, exit := h }
  | none =>
    if st.errored.isEmpty then
      { calls := st.calls, errored := st.errored, processed := st.processed,
        printedNothing := !st.processed, exit := .exited SUCCESS }
    else
      { calls := st.calls, errored := st.errored, processed := st.processed,
        printedNothing := false, exit := .exited GENERIC_ERROR }


/-- A node of the scanned directory tree.  `link` covers both symbolic links
and junctions (the walker treats the two identically: never recursed into,
skipped entirely under `skip_links`); its `dirLike` flag is what
`DirEntry.is_dir()` — which follows links — reports. -/
inductive FsNode where
  | file (nm : String)
  | dir (nm : String) (children : List FsNode)
  | link (nm : String) (dirLike : Bool)

mutual

/-- Boolean equality on tree nodes (the derive handler does not support the
nested list). -/
def FsNode.beq : FsNode → FsNode → Bool
  | .file a, .file b => a == b
  | .dir a cs, .dir b ds => a == b && beqNodes cs ds
  | .link a x, .link b y => a == b && x == y
  | _, _ => false

/-- Boolean equality on lists of tree nodes. -/
def beqNodes : List FsNode → List FsNode → Bool
  | [], [] => true
  | c :: cs, d :: ds => FsNode.beq c d && beqNodes cs ds
  | _, _ => false

end

mutual

theorem FsNode.beq_iff : ∀ a b : FsNode, FsNode.beq a b = true ↔ a = b
  | .file a, .file b => by simp [FsNode.beq]
  | .file _, .dir _ _ => by simp [FsNode.beq]
  | .file _, .link _ _ => by simp [FsNode.beq]
  | .dir _ _, .file _ => by simp [FsNode.beq]
  | .dir a cs, .dir b ds => by
      simp [FsNode.beq, beqNodes_iff cs ds]
  | .dir _ _, .link _ _ => by simp [FsNode.beq]
  | .link _ _, .file _ => by simp [FsNode.beq]
  | .link _ _, .dir _ _ => by simp [FsNode.beq]
  | .link a x, .link b y => by simp [FsNode.beq]

theorem beqNodes_iff : ∀ cs ds : List FsNode, beqNodes cs ds = true ↔ cs = ds
  | [], [] => by simp [beqNodes]
  | [], _ :: _ => by simp [beqNodes]
  | _ :: _, [] => by simp [beqNodes]
  | c :: cs, d :: ds => by
      simp [beqNodes, FsNode.beq_iff c d, beqNodes_iff cs ds]

end

instance : DecidableEq FsNode := fun a b =>
  decidable_of_iff (FsNode.beq a b = true) (FsNode.beq_iff a b)

instance : Inhabited FsNode := ⟨FsNode.file ""⟩

/-- Name of a tree node. -/
def FsNode.name : FsNode → String
  | .file nm => nm
  | .dir nm _ => nm
  | .link nm _ => nm

/-- Children listed by `os.scandir` for this node. -/
def FsNode.children : FsNode → List FsNode
  | .dir _ cs => cs
  | _ => []

/-- Python `DirEntry.is_dir()` (follows links). -/
def FsNode.entryIsDir : FsNode → Bool
  | .dir _ _ => true
  | .link _ b => b
  | .file _ => false

/-- Python `DirEntry.is_symlink() or DirEntry.is_junction()`. -/
def FsNode.isLink : FsNode → Bool
  | .link _ _ => true
  | _ => false

/-- The recursion guard of `get_paths` (line 266): a directory that is
neither a symlink nor a junction. -/
def FsNode.isRealDir : FsNode → Bool
  | .dir _ _ => true
  | _ => false

mutual

/-- Number of nodes in a tree (termination measure for the walk). -/
def FsNode.sz : FsNode → Nat
  | .file _ => 1
  | .link _ _ => 1
  | .dir _ cs => 1 + szNodes cs

/-- Total size of a list of trees. -/
def szNodes : List FsNode → Nat
  | [] => 0
  | c :: cs => FsNode.sz c + szNodes cs

end

/-- A directory entry seen by the walker: its path (as the list of name
components below the working directory, i.e. the chain of `os.path.join`
steps) and its node. -/
abbrev WalkEntry := List String × FsNode

/-- The path string of an entry as the walker builds it with the separator
(the leading `./` from `os.curdir` is plumbing and omitted). -/
def renderP (comps : List String) : String := String.intercalate "/" comps

/-- Entries returned by `os.scandir` on a directory entry. -/
def scandirE (e : WalkEntry) : List WalkEntry :=
  e.2.children.map (fun c => (e.1 ++ [c.name], c))

/-- Embedding of `get_path_content` (lines 174-194): list children, dropping
symlinks and junctions when `skip_links` is set. -/
def get_path_content (skipLinks : Bool) (e : WalkEntry) : List WalkEntry :=
  (scandirE e).filter (fun q => !(skipLinks && q.2.isLink))

/-- The candidate string handed to the exclusion matcher during capture
(lines 219-225): lower-cased first when ignore-case is set, then a trailing
separator appended for entries whose `is_dir()` is true. -/
def candidateOf (ic : Bool) (q : WalkEntry) : String :=
  (if ic then (renderP q.1).toLower else renderP q.1) ++
    (if q.2.entryIsDir then "/" else "")

/-- Embedding of `get_non_excluded_items` (lines 197-236): list children,
dropping links under `skip_links` and dropping entries the matcher
excludes. -/
def get_non_excluded_items (m : String → Bool) (ic skipLinks : Bool)
    (e : WalkEntry) : List WalkEntry :=
  (scandirE e).filter
    (fun q => !(skipLinks && q.2.isLink) && !(m (candidateOf ic q)))

/-- One directory's scan inside `get_paths`: with compiled rules use the
excluding variant, without them the plain listing (lines 246-258, 267-279). -/
def childItems (mo : Option (String → Bool)) (ic skipLinks : Bool)
    (e : WalkEntry) : List WalkEntry :=
  match mo with
  | none => get_path_content skipLinks e
  | some m => get_non_excluded_items m ic skipLinks e

/-- One round of the breadth-first loop of `get_paths` (lines 265-279):
scan every real directory of the current level. -/
def expandLevel (mo : Option (String → Bool)) (ic skipLinks : Bool)
    (level : List WalkEntry) : List WalkEntry :=
  level.flatMap (fun e => if e.2.isRealDir then childItems mo ic skipLinks e else [])

/-- Total node size of a level. -/
def szEntries : List WalkEntry → Nat
  | [] => 0
  | e :: es => e.2.sz + szEntries es

theorem szEntries_append (a b : List WalkEntry) :
    szEntries (a ++ b) = szEntries a + szEntries b := by
  induction a with
  | nil => simp [szEntries]
  | cons e es ih =>
    show e.2.sz + szEntries (es ++ b) = e.2.sz + szEntries es + szEntries b
    rw [ih]
    ring

theorem szEntries_filter (p : WalkEntry → Bool) (l : List WalkEntry) :
    szEntries (l.filter p) ≤ szEntries l := by
  induction l with
  | nil => simp [szEntries]
  | cons e es ih =>
    simp only [List.filter_cons]
    by_cases h : p e = true
    · rw [if_pos h]
      simp only [szEntries]
      omega
    · rw [if_neg (by simp [h])]
      simp only [szEntries]
      omega

theorem szEntries_scandirE (e : WalkEntry) :
    szEntries (scandirE e) = szNodes e.2.children := by
  obtain ⟨p, n⟩ := e
  simp only [scandirE]
  induction n.children generalizing p with
  | nil => simp [szEntries, szNodes]
  | cons c cs ih => simp only [List.map_cons, szEntries, szNodes, ih]

theorem FsNode.sz_pos (n : FsNode) : 0 < n.sz := by
  cases n <;> simp [FsNode.sz]

theorem szEntries_childItems_lt (mo : Option (String → Bool))
    (ic skipLinks : Bool) (e : WalkEntry) (h : e.2.isRealDir = true) :
    szEntries (childItems mo ic skipLinks e) < e.2.sz := by
  obtain ⟨p, n⟩ := e
  have hsub : szEntries (childItems mo ic skipLinks (p, n)) ≤ szNodes n.children := by
    cases mo with
    | none =>
      exact le_trans (szEntries_filter _ _) (le_of_eq (szEntries_scandirE _))
    | some m =>
      exact le_trans (szEntries_filter _ _) (le_of_eq (szEntries_scandirE _))
  cases n with
  | file nm => simp [FsNode.isRealDir] at h
  | link nm b => simp [FsNode.isRealDir] at h
  | dir nm cs =>
    have hlt : szNodes cs < (FsNode.dir nm cs).sz := by simp [FsNode.sz]
    have hch : szNodes (FsNode.dir nm cs).children = szNodes cs := by
      simp [FsNode.children]
    show szEntries (childItems mo ic skipLinks (p, FsNode.dir nm cs))
        < (FsNode.dir nm cs).sz
    omega

theorem szEntries_expandLevel_le (mo : Option (String → Bool))
    (ic skipLinks : Bool) (l : List WalkEntry) :
    szEntries (expandLevel mo ic skipLinks l) ≤ szEntries l := by
  induction l with
  | nil => simp [expandLevel, szEntries]
  | cons f fs ihf =>
    simp only [expandLevel, List.flatMap_cons] at ihf ⊢
    rw [szEntries_append]
    have hf : szEntries (if f.2.isRealDir then childItems mo ic skipLinks f else [])
        ≤ f.2.sz := by
      by_cases hd : f.2.isRealDir = true
      · rw [if_pos hd]
        exact le_of_lt (szEntries_childItems_lt mo ic skipLinks f hd)
      · rw [if_neg hd]
        have := f.2.sz_pos
        simp only [szEntries]
        omega
    simp only [szEntries]
    omega

theorem szEntries_expandLevel_lt (mo : Option (String → Bool))
    (ic skipLinks : Bool) (level : List WalkEntry) (h : level ≠ []) :
    szEntries (expandLevel mo ic skipLinks level) < szEntries level := by
  cases level with
  | nil => exact absurd rfl h
  | cons e es =>
    simp only [expandLevel, List.flatMap_cons]
    rw [szEntries_append]
    have hf : szEntries (if e.2.isRealDir then childItems mo ic skipLinks e else [])
        < e.2.sz := by
      by_cases hd : e.2.isRealDir = true
      · rw [if_pos hd]; exact szEntries_childItems_lt mo ic skipLinks e hd
      · rw [if_neg hd]
        have := e.2.sz_pos
        simp only [szEntries]
        omega
    have hrest := szEntries_expandLevel_le mo ic skipLinks es
    simp only [expandLevel] at hrest
    simp only [szEntries]
    omega

/-- The `while True` loop of `get_paths` (lines 264-287): expand the current
level, stop when no new entries were produced, otherwise collect the new
level and repeat. -/
def bfsLoop (mo : Option (String → Bool)) (ic skipLinks : Bool)
    (level : List WalkEntry) : List WalkEntry :=
  let temp := expandLevel mo ic skipLinks level
  if h : temp.isEmpty then [] else temp ++ bfsLoop mo ic skipLinks temp
termination_by szEntries level
decreasing_by
  have htemp : expandLevel mo ic skipLinks level ≠ [] := by
    intro hl
    apply h
    show (expandLevel mo ic skipLinks level).isEmpty = true
    rw [hl]
    rfl
  have hlevel : level ≠ [] := by
    intro hl
    apply htemp
    rw [hl]
    rfl
  exact szEntries_expandLevel_lt mo ic skipLinks level hlevel

/-- Embedding of `get_paths` (lines 239-289): the filtered top-level scan of
the working directory followed by the breadth-first expansion. -/
def get_paths (mo : Option (String → Bool)) (ic skipLinks : Bool)
    (root : FsNode) : List WalkEntry :=
  let level0 := childItems mo ic skipLinks ([], root)
  level0 ++ bfsLoop mo ic skipLinks level0

mutual

/-- All entries strictly below a node, with their component paths. -/
def subEntries (p : List String) : FsNode → List WalkEntry
  | .dir _ cs => subEntriesList p cs
  | .file _ => []
  | .link _ _ => []

/-- All entries contributed by a list of children of a directory at `p`. -/
def subEntriesList (p : List String) : List FsNode → List WalkEntry
  | [] => []
  | c :: rest =>
    (p ++ [c.name], c) :: (subEntries (p ++ [c.name]) c ++ subEntriesList p rest)

end

mutual

/-- Well-formedness of a scanned tree: within each directory the children's
names are distinct, as they are on a real filesystem. -/
def FsNode.wfB : FsNode → Bool
  | .file _ => true
  | .link _ _ => true
  | .dir _ cs => decide ((cs.map FsNode.name).Nodup) && wfNodesB cs

/-- Well-formedness of a list of subtrees. -/
def wfNodesB : List FsNode → Bool
  | [] => true
  | c :: cs => FsNode.wfB c && wfNodesB cs

end

/-- Result of `collect_file_attrs`: the snapshot mapping built so far and
whether the capture aborted via the consecutive-error branch
(`sys.exit(GENERIC_ERROR)` after dumping the partial snapshot). -/
structure CollectResult where
  attrs : List (String × RawRecord)
  aborted : Bool
deriving DecidableEq

/-- The capture loop of `collect_file_attrs` (lines 302-338) over the items
produced by the walker.  An item is a path together with `some record` when
`get_attrs` succeeds on it and `none` when reading its attributes raises.
The loop checks the consecutive-error counter against 10 at the top of each
iteration, then unconditionally resets it to 0 before attempting the read; a
failed read leaves the counter at 1. -/
def collectLoop : List (String × Option RawRecord) → List (String × RawRecord) →
    Nat → CollectResult
  | [], acc, _ => { attrs := acc, aborted := false }
  | (p, r?) :: rest, acc, consec =>
    if consec = 10 then { attrs := acc, aborted := true }
    else
      match r? with
      | some r => collectLoop rest (acc ++ [(p, r)]) 0
      | none => collectLoop rest acc 1

/-- Embedding of `collect_file_attrs` (lines 292-338): run the capture loop
with the counter starting at 0. -/
def collect_file_attrs (items : List (String × Option RawRecord)) : CollectResult :=
  collectLoop items [] 0

theorem timestamp_changed_windows_iff (t1 t2 : TsVal) :
    timestamp_changed .windows t1 t2 = true ↔ 300 < |toNs t1 - toNs t2| := by
  show decide (300 < pyAbs (qSub (toNs t1) (toNs t2))) = true ↔ _
  rw [qSub_eq, pyAbs_eq_abs, decide_eq_true_iff]

theorem timestamp_changed_self (plat : Plat) (t : TsVal) :
    timestamp_changed plat t t = false := by
  cases plat
  · show decide (300 < pyAbs (qSub (toNs t) (toNs t))) = false
    rw [qSub_eq, pyAbs_eq_abs, decide_eq_false_iff_not, not_lt, sub_self, abs_zero]
    norm_num
  · show decide (toNs t ≠ toNs t) = false
    simp

/-- C6: after conversion to nanosecond space, the Windows comparison judges
any difference within the ±300 band (in particular a difference of 250) as
unchanged and a difference of 400 as changed, while the POSIX comparison
judges the pair changed exactly when the converted values are not equal. -/
theorem c6_windows_tolerance :
    (∀ t1 t2 : TsVal, |toNs t1 - toNs t2| ≤ 300 →
        timestamp_changed .windows t1 t2 = false)
    ∧ timestamp_changed .windows (.intNs 1000) (.intNs 1250) = false
    ∧ timestamp_changed .windows (.intNs 1000) (.intNs 1400) = true
    ∧ (∀ t1 t2 : TsVal,
        timestamp_changed .posix t1 t2 = decide (toNs t1 ≠ toNs t2)) := by
  refine ⟨?_, by decide, by decide, ?_⟩
  · intro t1 t2 h
    show decide (300 < pyAbs (qSub (toNs t1) (toNs t2))) = false
    rw [qSub_eq, pyAbs_eq_abs, decide_eq_false_iff_not, not_lt]
    exact h
  · intro t1 t2
    rfl

theorem c6_windows_tolerance_witness :
    timestamp_changed .windows (.floatSec (3 / 2)) (.intNs 1500000250) = false :=
  c6_windows_tolerance.1 (.floatSec (3 / 2)) (.intNs 1500000250) (by
    show |toNs (.floatSec (3 / 2)) - toNs (.intNs 1500000250)| ≤ 300
    rw [toNs_floatSec]
    norm_num [toNs, abs_le])

/-- C5: the comparison unit for a stored record is auto-detected from the
numeric type of the stored (mtime) value: an integer stored mtime makes both
timestamp comparisons run against the live nanosecond stat fields, a float
stored mtime makes them run against the live float-second stat fields; and
because every operand is converted to nanosecond space inside the
comparison, two operands that are equal after conversion (in particular an
integer nanosecond value and a float second value denoting the same instant)
are never judged changed, on either platform. -/
theorem c5_unit_autodetection :
    (∀ (plat : Plat) (st : StatInfo) (attr : ParsedAttr) (sc : Bool) (n : Int),
      attr.mtimeOf = .intNs n →
        (get_attr_for_restore plat attr st sc).mtime_changed
            = timestamp_changed plat (.intNs st.st_mtime_ns) (.intNs n)
        ∧ (get_attr_for_restore plat attr st sc).atime_changed
            = timestamp_changed plat (.intNs st.st_atime_ns) attr.atimeOf)
    ∧ (∀ (plat : Plat) (st : StatInfo) (attr : ParsedAttr) (sc : Bool) (q : ℚ),
      attr.mtimeOf = .floatSec q →
        (get_attr_for_restore plat attr st sc).mtime_changed
            = timestamp_changed plat (.floatSec st.st_mtime_s) (.floatSec q)
        ∧ (get_attr_for_restore plat attr st sc).atime_changed
            = timestamp_changed plat (.floatSec st.st_atime_s) attr.atimeOf)
    ∧ (∀ (plat : Plat) (t1 t2 : TsVal), toNs t1 = toNs t2 →
        timestamp_changed plat t1 t2 = false) := by
  refine ⟨?_, ?_, ?_⟩
  · intro plat st attr sc n hm
    cases plat <;> cases attr <;>
      simp_all [get_attr_for_restore, ParsedAttr.mtimeOf, ParsedAttr.atimeOf,
        TsVal.isInt, apply_ite]
  · intro plat st attr sc q hm
    cases plat <;> cases attr <;>
      simp_all [get_attr_for_restore, ParsedAttr.mtimeOf, ParsedAttr.atimeOf,
        TsVal.isInt, apply_ite]
  · intro plat t1 t2 h
    cases plat
    · show decide (300 < pyAbs (qSub (toNs t1) (toNs t2))) = false
      rw [qSub_eq, pyAbs_eq_abs, decide_eq_false_iff_not, not_lt, h, sub_self,
        abs_zero]
      norm_num
    · show decide (toNs t1 ≠ toNs t2) = false
      simp [h]

/-- Sample stat record used by concrete witnesses. -/
def sampleStat : StatInfo :=
  { st_mtime_ns := 5, st_atime_ns := 7, st_birthtime_ns := 1,
    st_mtime_s := 0, st_atime_s := 0, st_ctime_s := 0,
    st_mode := 420, st_uid := 0, st_gid := 0, st_file_attributes := 32 }

/-- Sample POSIX attribute record matching `sampleStat`. -/
def sampleAttr : AttrData :=
  { atime := .intNs 7, mtime := .intNs 5, ctime := .intNs 1,
    mode := 420, uid := 0, gid := 0 }

theorem c5_unit_autodetection_witness :
    ((get_attr_for_restore .posix (.posix sampleAttr) sampleStat false).mtime_changed
        = timestamp_changed .posix (.intNs sampleStat.st_mtime_ns) (.intNs 5)
      ∧ (get_attr_for_restore .posix (.posix sampleAttr) sampleStat false).atime_changed
        = timestamp_changed .posix (.intNs sampleStat.st_atime_ns)
            (ParsedAttr.atimeOf (.posix sampleAttr)))
    ∧ timestamp_changed .windows (.intNs 2000000000) (.floatSec 2) = false :=
  ⟨c5_unit_autodetection.1 .posix sampleStat (.posix sampleAttr) false 5 rfl,
   c5_unit_autodetection.2.2 .windows (.intNs 2000000000) (.floatSec 2) (by
     show ((2000000000 : Int) : ℚ) = toNs (.floatSec 2)
     rw [toNs_floatSec]
     norm_num)⟩

theorem collectLoop_never_aborts (items : List (String × Option RawRecord))
    (acc : List (String × RawRecord)) (consec : Nat) (h : consec ≤ 1) :
    (collectLoop items acc consec).aborted = false := by
  induction items generalizing acc consec with
  | nil => rfl
  | cons it rest ih =>
    obtain ⟨p, r?⟩ := it
    simp only [collectLoop]
    rw [if_neg (by omega)]
    cases r? with
    | some r => exact ih _ _ (by omega)
    | none => exact ih _ _ (by omega)

/-- C10 (code evidence): the capture loop can never abort on consecutive
errors, because `consecutive_errors` is reset to 0 at the top of every
iteration, before the attribute read is attempted, so its value at the
`== 10` check is never more than 1.  In particular a capture whose attribute
reads fail 12 times in a row still runs to completion (and collects
nothing), instead of aborting after 10 consecutive failures as claimed. -/
theorem c10_consecutive_errors_never_abort :
    (∀ items : List (String × Option RawRecord),
        (collect_file_attrs items).aborted = false)
    ∧ collect_file_attrs (List.replicate 12 ("f", (none : Option RawRecord)))
        = { attrs := [], aborted := false } := by
  constructor
  · intro items
    exact collectLoop_never_aborts items [] 0 (by omega)
  · rfl

/-- Live entry for the copy-creation-to-accessed crash scenario: an ordinary
existing file whose attributes all match the snapshot. -/
def c8Entry : FsEntry :=
  { stat := sampleStat, isLink := false, isDir := false,
    mutationFails := false, winAttrFails := false, setTimesFails := false }

/-- One-file filesystem for the crash scenario. -/
def c8Fs : String → Option FsEntry :=
  fun p => if p = "a.txt" then some c8Entry else none

/-- Snapshot captured from the same filesystem. -/
def c8Snapshot : List (String × RawRecord) :=
  [("a.txt", get_attrs .posix sampleStat)]

/-- C8 (code evidence): a POSIX restore with `copy_to_access` enabled does
not perform the claimed extra timestamp write.  `get_attr_for_restore` never
assigns `stored_data.ctime` on POSIX, so the comparison `ctime != atime` is
`None != number`, which is true, and `os.utime(path, ns=(None, mtime))`
raises an uncaught `TypeError`: the run ends in an uncaught exception with
no mutation call issued. -/
theorem c8_copy_to_access_posix_crash :
    (apply_file_attrs .posix true c8Fs c8Snapshot
        { copy_to_access := true }).exit = .uncaught
    ∧ (apply_file_attrs .posix true c8Fs c8Snapshot
        { copy_to_access := true }).calls = [] := by
  constructor <;> rfl

theorem validateRecord_get_attrs_posix (st : StatInfo) :
    validateRecord (get_attrs .posix st)
      = some (.posix
          { atime := .intNs st.st_atime_ns, mtime := .intNs st.st_mtime_ns,
            ctime := .intNs st.st_birthtime_ns, mode := st.st_mode,
            uid := st.st_uid, gid := st.st_gid }) := rfl

theorem validateRecord_get_attrs_windows (st : StatInfo) :
    validateRecord (get_attrs .windows st)
      = some (.win
          { atime := .intNs st.st_atime_ns, mtime := .intNs st.st_mtime_ns,
            ctime := .intNs st.st_birthtime_ns,
            archive := decide (st.st_file_attributes &&& FILE_ATTRIBUTE_ARCHIVE ≠ 0),
            hidden := decide (st.st_file_attributes &&& FILE_ATTRIBUTE_HIDDEN ≠ 0),
            readonly := decide (st.st_file_attributes &&& FILE_ATTRIBUTE_READONLY ≠ 0),
            system := decide (st.st_file_attributes &&& FILE_ATTRIBUTE_SYSTEM ≠ 0) })
    := rfl

theorem get_attr_for_restore_roundtrip_posix (st : StatInfo) (sc : Bool) :
    get_attr_for_restore .posix
        (.posix { atime := .intNs st.st_atime_ns, mtime := .intNs st.st_mtime_ns,
                  ctime := .intNs st.st_birthtime_ns, mode := st.st_mode,
                  uid := st.st_uid, gid := st.st_gid }) st sc
      = { atime := some (.intNs st.st_atime_ns),
          mtime := some (.intNs st.st_mtime_ns),
          mode := some st.st_mode, uid := some st.st_uid,
          gid := some st.st_gid } := by
  simp [get_attr_for_restore, ParsedAttr.mtimeOf, ParsedAttr.atimeOf,
    TsVal.isInt, timestamp_changed_self]

theorem get_attr_for_restore_roundtrip_windows (st : StatInfo) (sc : Bool) :
    get_attr_for_restore .windows
        (.win { atime := .intNs st.st_atime_ns, mtime := .intNs st.st_mtime_ns,
                ctime := .intNs st.st_birthtime_ns,
                archive := decide (st.st_file_attributes &&& FILE_ATTRIBUTE_ARCHIVE ≠ 0),
                hidden := decide (st.st_file_attributes &&& FILE_ATTRIBUTE_HIDDEN ≠ 0),
                readonly := decide (st.st_file_attributes &&& FILE_ATTRIBUTE_READONLY ≠ 0),
                system := decide (st.st_file_attributes &&& FILE_ATTRIBUTE_SYSTEM ≠ 0) })
        st sc
      = { atime := some (.intNs st.st_atime_ns),
          mtime := some (.intNs st.st_mtime_ns),
          ctime := some (.intNs st.st_birthtime_ns),
          archive := some (decide (st.st_file_attributes &&& FILE_ATTRIBUTE_ARCHIVE ≠ 0)),
          hidden := some (decide (st.st_file_attributes &&& FILE_ATTRIBUTE_HIDDEN ≠ 0)),
          readonly := some (decide (st.st_file_attributes &&& FILE_ATTRIBUTE_READONLY ≠ 0)),
          system := some (decide (st.st_file_attributes &&& FILE_ATTRIBUTE_SYSTEM ≠ 0)) }
    := by
  simp [get_attr_for_restore, ParsedAttr.mtimeOf, ParsedAttr.atimeOf,
    ParsedAttr.ctimeOf, TsVal.isInt, timestamp_changed_self, apply_ite]

theorem set_uid_gid_noop (entry : FsEntry) (k : String) (stored : ResultAttr)
    (so : Bool) (hu : stored.uid_changed = false) (hg : stored.gid_changed = false) :
    set_uid_gid entry k stored so = .ok false [] [] stored := by
  simp [set_uid_gid, hu, hg]

theorem set_permissions_noop (entry : FsEntry) (k : String) (stored : ResultAttr)
    (sp : Bool) (hm : stored.mode_changed = false) :
    set_permissions entry k stored sp = .ok false [] [] stored := by
  simp [set_permissions, hm]

theorem process_win_attributes_noop (entry : FsEntry) (k : String)
    (stored : ResultAttr) (sa sh sr ss : Bool)
    (h1 : stored.archive_changed = false) (h2 : stored.hidden_changed = false)
    (h3 : stored.readonly_changed = false) (h4 : stored.system_changed = false) :
    process_win_attributes entry k stored sa sh sr ss = .ok false [] [] stored := by
  simp [process_win_attributes, h1, h2, h3, h4]

theorem set_timestamps_noop (plat : Plat) (entry : FsEntry) (k : String)
    (stored : ResultAttr) (sm sc sa : Bool)
    (h1 : stored.mtime_changed = false) (h2 : stored.atime_changed = false)
    (h3 : stored.ctime_changed = false) :
    set_timestamps plat entry k stored sm sc sa = .ok false [] [] stored := by
  simp [set_timestamps, h1, h2, h3]

theorem copy_creation_to_accessed_noflag (entry : FsEntry) (k : String)
    (stored : ResultAttr) :
    copy_creation_to_accessed entry k stored false = .ok false [] [] stored := by
  simp [copy_creation_to_accessed]

theorem processItem_roundtrip (plat : Plat) (uf : Bool)
    (fs : String → Option FsEntry) (k : String) (entry : FsEntry)
    (hfs : fs k = some entry) :
    processItem plat uf {} fs k (get_attrs plat entry.stat) = .skipped ∨
    processItem plat uf {} fs k (get_attrs plat entry.stat) = .done [] false [] := by
  cases plat
  · cases hl : entry.isLink
    · right
      simp only [processItem, hfs, validateRecord_get_attrs_windows,
        excludedAtRestore, get_attr_for_restore_roundtrip_windows, hl]
      rfl
    · cases uf
      · right
        simp only [processItem, hfs, validateRecord_get_attrs_windows,
          excludedAtRestore, get_attr_for_restore_roundtrip_windows, hl]
        rfl
      · right
        simp only [processItem, hfs, validateRecord_get_attrs_windows,
          excludedAtRestore, get_attr_for_restore_roundtrip_windows, hl]
        rfl
  · cases hl : entry.isLink
    · right
      simp only [processItem, hfs, validateRecord_get_attrs_posix,
        excludedAtRestore, get_attr_for_restore_roundtrip_posix, hl]
      rfl
    · cases uf
      · left
        simp only [processItem, hfs, validateRecord_get_attrs_posix,
          excludedAtRestore, get_attr_for_restore_roundtrip_posix, hl]
        rfl
      · right
        simp only [processItem, hfs, validateRecord_get_attrs_posix,
          excludedAtRestore, get_attr_for_restore_roundtrip_posix, hl]
        rfl

theorem applyLoop_noop (step : String → ItemStep) (keys : List String)
    (st : ApplyState)
    (h : ∀ k ∈ keys, step k = .skipped ∨ step k = .done [] false []) :
    applyLoop step keys st = st := by
  induction keys generalizing st with
  | nil => rfl
  | cons k ks ih =>
    rcases h k (by simp) with hk | hk
    · simp only [applyLoop, hk]
      exact ih _ (fun j hj => h j (by simp [hj]))
    · simp only [applyLoop, hk, List.append_nil, Bool.or_false]
      exact ih _ (fun j hj => h j (by simp [hj]))

theorem lookupRec_map (ps : List (String × FsEntry)) (f : FsEntry → RawRecord)
    (k : String) (r : RawRecord)
    (h : lookupRec (ps.map (fun pe => (pe.1, f pe.2))) k = some r) :
    ∃ pe ∈ ps, pe.1 = k ∧ r = f pe.2 := by
  induction ps with
  | nil => simp [lookupRec] at h
  | cons pe rest ih =>
    simp only [List.map_cons, lookupRec] at h
    by_cases hk : pe.1 = k
    · rw [if_pos hk] at h
      refine ⟨pe, by simp, hk, ?_⟩
      injection h with h
      exact h.symm
    · rw [if_neg hk] at h
      obtain ⟨pe', hmem, hek, hr⟩ := ih h
      exact ⟨pe', by simp [hmem], hek, hr⟩

theorem mem_insertSorted (a s : String) (l : List String) :
    a ∈ insertSorted s l ↔ a = s ∨ a ∈ l := by
  induction l with
  | nil => simp [insertSorted]
  | cons t ts ih =>
    simp only [insertSorted]
    by_cases h : strLe s t = true
    · rw [if_pos h]
      simp
    · rw [if_neg h]
      simp only [List.mem_cons, ih]
      tauto

theorem mem_sortStrings (a : String) (l : List String) :
    a ∈ sortStrings l ↔ a ∈ l := by
  induction l with
  | nil => simp [sortStrings]
  | cons s ss ih => simp [sortStrings, mem_insertSorted, ih]

/-- C1: restoring a snapshot that was captured from the same unchanged
filesystem (the snapshot holding, for every path, exactly what `get_attrs`
read) with no skip flags, no exclusions and no copy-to-access issues no OS
mutation call, records no error, leaves the `processed` flag unset — so the
run prints "Nothing to change." — and exits with `SUCCESS`. -/
theorem c1_roundtrip_idempotence (plat : Plat) (uf : Bool)
    (fs : String → Option FsEntry) (ps : List (String × FsEntry))
    (h1 : ∀ pe ∈ ps, fs pe.1 = some pe.2) :
    apply_file_attrs plat uf fs
        (ps.map (fun pe => (pe.1, get_attrs plat pe.2.stat))) {}
      = { calls := [], errored := [], processed := false,
          printedNothing := true, exit := .exited SUCCESS } := by
  have hsteps : ∀ k ∈ sortStrings ((ps.map
      (fun pe => (pe.1, get_attrs plat pe.2.stat))).map Prod.fst),
      restoreStep plat uf {} fs (ps.map (fun pe => (pe.1, get_attrs plat pe.2.stat))) k
          = .skipped ∨
      restoreStep plat uf {} fs (ps.map (fun pe => (pe.1, get_attrs plat pe.2.stat))) k
          = .done [] false [] := by
    intro k _
    unfold restoreStep
    cases hlook : lookupRec (ps.map (fun pe => (pe.1, get_attrs plat pe.2.stat))) k with
    | none => left; rfl
    | some r =>
      obtain ⟨pe, hmem, hek, hr⟩ :=
        lookupRec_map ps (fun e => get_attrs plat e.stat) k r hlook
      have hfs : fs k = some pe.2 := by
        rw [← hek]
        exact h1 pe hmem
      rw [hr]
      exact processItem_roundtrip plat uf fs k pe.2 hfs
  simp only [apply_file_attrs]
  rw [applyLoop_noop _ _ _ hsteps]
  rfl

theorem c1_roundtrip_idempotence_witness :
    apply_file_attrs .posix true
        (fun p => if p = "a.txt" then some c8Entry else none)
        ([("a.txt", c8Entry)].map (fun pe => (pe.1, get_attrs .posix pe.2.stat))) {}
      = { calls := [], errored := [], processed := false,
          printedNothing := true, exit := .exited SUCCESS } :=
  c1_roundtrip_idempotence .posix true
    (fun p => if p = "a.txt" then some c8Entry else none)
    [("a.txt", c8Entry)] (by decide)

theorem andThen_calls (P : MutationCall → Prop) (k : String)
    (calls : List MutationCall) (changed : Bool) (errs : List String)
    (s : SubOutcome)
    (next : List MutationCall → Bool → List String → ResultAttr → ItemStep)
    (hacc : ∀ c ∈ calls, P c)
    (hs : ∀ b cs es st', s = .ok b cs es st' → ∀ c ∈ cs, P c)
    (hnext : ∀ calls2 changed2 errs2 st', (∀ c ∈ calls2, P c) →
        ∀ c ∈ (next calls2 changed2 errs2 st').callsOf, P c) :
    ∀ c ∈ (SubOutcome.andThen k calls changed errs s next).callsOf, P c := by
  cases s with
  | crash => simpa [SubOutcome.andThen, ItemStep.callsOf] using hacc
  | raised => simpa [SubOutcome.andThen, ItemStep.callsOf] using hacc
  | ok b cs es st' =>
    simp only [SubOutcome.andThen]
    refine hnext _ _ _ _ ?_
    intro c hc
    rcases List.mem_append.mp hc with h | h
    · exact hacc c h
    · exact hs b cs es st' rfl c h

theorem set_uid_gid_ok_calls (entry : FsEntry) (k : String) (stored : ResultAttr)
    (so : Bool) (b : Bool) (cs : List MutationCall) (es : List String)
    (st' : ResultAttr) (h : set_uid_gid entry k stored so = .ok b cs es st') :
    ∀ c ∈ cs, c.pathOf = k ∧ c.winFlagPath = none := by
  revert h
  unfold set_uid_gid
  try simp only []
  repeat' split
  all_goals intro h
  all_goals cases h
  all_goals simp [MutationCall.pathOf, MutationCall.winFlagPath]

theorem set_permissions_ok_calls (entry : FsEntry) (k : String)
    (stored : ResultAttr) (sp : Bool) (b : Bool) (cs : List MutationCall)
    (es : List String) (st' : ResultAttr)
    (h : set_permissions entry k stored sp = .ok b cs es st') :
    ∀ c ∈ cs, c.pathOf = k ∧ c.winFlagPath = none := by
  revert h
  unfold set_permissions
  try simp only []
  repeat' split
  all_goals intro h
  all_goals cases h
  all_goals simp [MutationCall.pathOf, MutationCall.winFlagPath]

theorem process_win_attributes_ok_calls (entry : FsEntry) (k : String)
    (stored : ResultAttr) (sa sh sr ss : Bool) (b : Bool)
    (cs : List MutationCall) (es : List String) (st' : ResultAttr)
    (h : process_win_attributes entry k stored sa sh sr ss = .ok b cs es st') :
    ∀ c ∈ cs, c.pathOf = k := by
  revert h
  unfold process_win_attributes
  by_cases hc : (stored.archive_changed && !sa || stored.hidden_changed && !sh
      || stored.readonly_changed && !sr || stored.system_changed && !ss) = true
  · rw [if_pos hc]
    by_cases hw : entry.winAttrFails = true
    · rw [if_pos hw]
      intro h
      cases h
      simp
    · rw [if_neg hw]
      intro h
      cases h
      simp [MutationCall.pathOf]
  · rw [if_neg hc]
    intro h
    cases h
    simp

theorem set_timestamps_ok_calls (plat : Plat) (entry : FsEntry) (k : String)
    (stored : ResultAttr) (sm sc sa : Bool) (b : Bool) (cs : List MutationCall)
    (es : List String) (st' : ResultAttr)
    (h : set_timestamps plat entry k stored sm sc sa = .ok b cs es st') :
    ∀ c ∈ cs, c.pathOf = k ∧ c.winFlagPath = none := by
  revert h
  unfold set_timestamps
  try simp only []
  repeat' split
  all_goals intro h
  all_goals cases h
  all_goals simp [MutationCall.pathOf, MutationCall.winFlagPath]

theorem copy_creation_to_accessed_ok_calls (entry : FsEntry) (k : String)
    (stored : ResultAttr) (cta : Bool) (b : Bool) (cs : List MutationCall)
    (es : List String) (st' : ResultAttr)
    (h : copy_creation_to_accessed entry k stored cta = .ok b cs es st') :
    ∀ c ∈ cs, c.pathOf = k ∧ c.winFlagPath = none := by
  revert h
  unfold copy_creation_to_accessed
  try simp only []
  repeat' split
  all_goals intro h
  all_goals cases h
  all_goals simp [MutationCall.pathOf, MutationCall.winFlagPath]

theorem processItem_calls_tagged (plat : Plat) (uf : Bool) (cfg : RestoreCfg)
    (fs : String → Option FsEntry) (k : String) (r : RawRecord) :
    ∀ c ∈ (processItem plat uf cfg fs k r).callsOf, c.pathOf = k := by
  unfold processItem
  cases fs k with
  | none => simp [ItemStep.callsOf]
  | some entry =>
    cases validateRecord r with
    | none => simp [ItemStep.callsOf]
    | some attr =>
      by_cases hex : excludedAtRestore cfg entry k = true
      · simp [hex, ItemStep.callsOf]
      · simp only [hex, Bool.false_eq_true, if_false, if_neg]
        split
        · cases plat
          · refine andThen_calls (fun c => c.pathOf = k) k _ _ _ _ _ (by simp) ?_ ?_
            · intro b cs es st' hok c hc
              split at hok
              · exact process_win_attributes_ok_calls _ _ _ _ _ _ _ _ _ _ _ hok c hc
              · cases hok
                simp at hc
            · intro c2 b2 e2 st1 hP
              refine andThen_calls (fun c => c.pathOf = k) k _ _ _ _ _ hP ?_ ?_
              · intro b cs es st' hok c hc
                exact (set_timestamps_ok_calls _ _ _ _ _ _ _ _ _ _ _ hok c hc).1
              · intro c3 b3 e3 st2 hP2
                refine andThen_calls (fun c => c.pathOf = k) k _ _ _ _ _ hP2 ?_ ?_
                · intro b cs es st' hok c hc
                  exact (copy_creation_to_accessed_ok_calls _ _ _ _ _ _ _ _ hok c hc).1
                · intro c4 b4 e4 st3 hP3
                  simpa [ItemStep.callsOf] using hP3
          · refine andThen_calls (fun c => c.pathOf = k) k _ _ _ _ _ (by simp) ?_ ?_
            · intro b cs es st' hok c hc
              exact (set_uid_gid_ok_calls _ _ _ _ _ _ _ _ hok c hc).1
            · intro c2 b2 e2 st1 hP
              refine andThen_calls (fun c => c.pathOf = k) k _ _ _ _ _ hP ?_ ?_
              · intro b cs es st' hok c hc
                exact (set_permissions_ok_calls _ _ _ _ _ _ _ _ hok c hc).1
              · intro c3 b3 e3 st2 hP2
                refine andThen_calls (fun c => c.pathOf = k) k _ _ _ _ _ hP2 ?_ ?_
                · intro b cs es st' hok c hc
                  exact (set_timestamps_ok_calls _ _ _ _ _ _ _ _ _ _ _ hok c hc).1
                · intro c4 b4 e4 st3 hP3
                  refine andThen_calls (fun c => c.pathOf = k) k _ _ _ _ _ hP3 ?_ ?_
                  · intro b cs es st' hok c hc
                    exact (copy_creation_to_accessed_ok_calls _ _ _ _ _ _ _ _ hok c hc).1
                  · intro c5 b5 e5 st4 hP4
                    simpa [ItemStep.callsOf] using hP4
        · simp [ItemStep.callsOf]

theorem validateWinAttrData_isSome (r : RawRecord) (w : WinAttrData)
    (h : validateWinAttrData r = some w) :
    r.archive.isSome = true ∧ r.hidden.isSome = true
      ∧ r.readonly.isSome = true ∧ r.system.isSome = true := by
  revert h
  unfold validateWinAttrData
  split
  · intro h
    simp_all
  · intro h
    exact Option.noConfusion h

theorem validateRecord_missing_flag (r : RawRecord) (attr : ParsedAttr)
    (hv : validateRecord r = some attr)
    (hmiss : r.archive = none ∨ r.hidden = none ∨ r.readonly = none
      ∨ r.system = none) :
    ∃ a, attr = .posix a := by
  have hwin : validateWinAttrData r = none := by
    cases hw : validateWinAttrData r with
    | none => rfl
    | some w =>
      obtain ⟨h1, h2, h3, h4⟩ := validateWinAttrData_isSome r w hw
      rcases hmiss with h | h | h | h <;> simp_all
  cases ha : validateAttrData r with
  | some a =>
    refine ⟨a, ?_⟩
    unfold validateRecord at hv
    rw [ha] at hv
    injection hv with hv
    exact hv.symm
  | none =>
    have hold : validateOldWinAttrData r = none := by
      unfold validateOldWinAttrData
      rw [ha]
    unfold validateRecord at hv
    rw [ha, hwin, hold] at hv
    exact Option.noConfusion hv

theorem get_attr_for_restore_windows_posix_archive (a : AttrData) (st : StatInfo)
    (sc : Bool) :
    (get_attr_for_restore .windows (.posix a) st sc).archive = none := by
  simp [get_attr_for_restore, apply_ite]

theorem processItem_no_winattr (uf : Bool) (cfg : RestoreCfg)
    (fs : String → Option FsEntry) (k : String) (r : RawRecord)
    (hmiss : r.archive = none ∨ r.hidden = none ∨ r.readonly = none
      ∨ r.system = none) :
    ∀ c ∈ (processItem .windows uf cfg fs k r).callsOf, c.winFlagPath = none := by
  unfold processItem
  cases fs k with
  | none => simp [ItemStep.callsOf]
  | some entry =>
    cases hv : validateRecord r with
    | none => simp [ItemStep.callsOf]
    | some attr =>
      obtain ⟨a, rfl⟩ := validateRecord_missing_flag r attr hv hmiss
      by_cases hex : excludedAtRestore cfg entry k = true
      · simp [hex, ItemStep.callsOf]
      · simp only [hex, Bool.false_eq_true, if_false, if_neg]
        split
        · refine andThen_calls (fun c => c.winFlagPath = none) k _ _ _ _ _
            (by simp) ?_ ?_
          · intro b cs es st' hok c hc
            rw [if_neg (by
              rw [get_attr_for_restore_windows_posix_archive]
              simp)] at hok
            cases hok
            simp at hc
          · intro c2 b2 e2 st1 hP
            refine andThen_calls (fun c => c.winFlagPath = none) k _ _ _ _ _ hP ?_ ?_
            · intro b cs es st' hok c hc
              exact (set_timestamps_ok_calls _ _ _ _ _ _ _ _ _ _ _ hok c hc).2
            · intro c3 b3 e3 st2 hP2
              refine andThen_calls (fun c => c.winFlagPath = none) k _ _ _ _ _ hP2 ?_ ?_
              · intro b cs es st' hok c hc
                exact (copy_creation_to_accessed_ok_calls _ _ _ _ _ _ _ _ hok c hc).2
              · intro c4 b4 e4 st3 hP3
                simpa [ItemStep.callsOf] using hP3
        · simp [ItemStep.callsOf]

theorem applyLoop_calls_pred (P : MutationCall → Prop) (step : String → ItemStep)
    (keys : List String) (st : ApplyState)
    (hst : ∀ c ∈ st.calls, P c)
    (h : ∀ k ∈ keys, ∀ c ∈ (step k).callsOf, P c) :
    ∀ c ∈ (applyLoop step keys st).calls, P c := by
  induction keys generalizing st with
  | nil => exact hst
  | cons k ks ih =>
    cases hstep : step k with
    | skipped =>
      simp only [applyLoop, hstep]
      exact ih _ hst (fun j hj => h j (by simp [hj]))
    | abortAttr =>
      simp only [applyLoop, hstep]
      exact hst
    | crash cs es =>
      simp only [applyLoop, hstep]
      intro c hc
      rcases List.mem_append.mp hc with h1 | h1
      · exact hst c h1
      · have := h k (by simp) c
        rw [hstep] at this
        exact this h1
    | done cs b es =>
      simp only [applyLoop, hstep]
      refine ih _ ?_ (fun j hj => h j (by simp [hj]))
      intro c hc
      rcases List.mem_append.mp hc with h1 | h1
      · exact hst c h1
      · have := h k (by simp) c
        rw [hstep] at this
        exact this h1

theorem apply_file_attrs_calls (plat : Plat) (uf : Bool)
    (fs : String → Option FsEntry) (attrs : List (String × RawRecord))
    (cfg : RestoreCfg) :
    (apply_file_attrs plat uf fs attrs cfg).calls
      = (applyLoop (restoreStep plat uf cfg fs attrs)
          (sortStrings (attrs.map Prod.fst))
          { calls := [], errored := [], processed := false, halted := none }).calls := by
  simp only [apply_file_attrs]
  split
  · rfl
  · split <;> rfl

/-- C2: on a Windows restore, a stored record that is missing any one of the
four boolean flags causes zero Windows flag-mutation calls
(`SetFileAttributesW`) for its path: either the record fails all three shape
validations and the whole restore aborts before any flag write for that
path, or it validates as the POSIX shape, in which case the flag group is
left unknown (`stored_data.archive is None`) and the flag-processing branch
is skipped. -/
theorem c2_unknown_flag_safety (uf : Bool) (cfg : RestoreCfg)
    (fs : String → Option FsEntry) (attrs : List (String × RawRecord))
    (k : String) (r : RawRecord)
    (hlook : lookupRec attrs k = some r)
    (hmiss : r.archive = none ∨ r.hidden = none ∨ r.readonly = none
      ∨ r.system = none) :
    ∀ c ∈ (apply_file_attrs .windows uf fs attrs cfg).calls,
      c.winFlagPath ≠ some k := by
  rw [apply_file_attrs_calls]
  refine applyLoop_calls_pred (fun c => c.winFlagPath ≠ some k) _ _ _ ?_ ?_
  · simp
  intro j _ c hc
  by_cases hjk : j = k
  · subst hjk
    have hstep : restoreStep .windows uf cfg fs attrs j
        = processItem .windows uf cfg fs j r := by
      simp [restoreStep, hlook]
    rw [hstep] at hc
    rw [processItem_no_winattr uf cfg fs j r hmiss c hc]
    simp
  · cases hl : lookupRec attrs j with
    | none =>
      rw [restoreStep, hl] at hc
      simp [ItemStep.callsOf] at hc
    | some r' =>
      have hstep : restoreStep .windows uf cfg fs attrs j
          = processItem .windows uf cfg fs j r' := by
        simp [restoreStep, hl]
      rw [hstep] at hc
      have hpath := processItem_calls_tagged .windows uf cfg fs j r' c hc
      cases c <;> simp_all [MutationCall.winFlagPath, MutationCall.pathOf]

/-- Windows-shaped record that is missing the `system` flag while the other
three flags are present. -/
def c2Record : RawRecord :=
  { atime := some (.intNs 1), mtime := some (.intNs 1), ctime := some (.intNs 1),
    mode := none, uid := none, gid := none,
    archive := some true, hidden := some true, readonly := some true,
    system := none }

theorem c2_unknown_flag_safety_witness :
    ((apply_file_attrs .windows true
        (fun p => if p = "w" then some c8Entry else none)
        [("w", c2Record)] {}).calls.all
      (fun c => decide (c.winFlagPath ≠ some "w"))) = true := by
  rw [List.all_eq_true]
  intro c hc
  exact decide_eq_true (c2_unknown_flag_safety true {}
    (fun p => if p = "w" then some c8Entry else none)
    [("w", c2Record)] "w" c2Record (by decide)
    (Or.inr (Or.inr (Or.inr rfl))) c hc)

theorem applyLoop_noFatal (step : String → ItemStep) (keys : List String)
    (st : ApplyState)
    (h : ∀ k ∈ keys, (step k).isFatal = false) :
    applyLoop step keys st =
      { calls := st.calls ++ keys.flatMap (fun k => (step k).callsOf),
        errored := st.errored ++ keys.flatMap (fun k => (step k).errsOf),
        processed := st.processed || keys.any (fun k => (step k).changedOf),
        halted := st.halted } := by
  induction keys generalizing st with
  | nil =>
    cases st
    simp [applyLoop]
  | cons k ks ih =>
    have hk := h k (by simp)
    cases hstep : step k with
    | abortAttr =>
      rw [hstep] at hk
      simp [ItemStep.isFatal] at hk
    | crash cs es =>
      rw [hstep] at hk
      simp [ItemStep.isFatal] at hk
    | skipped =>
      simp only [applyLoop, hstep]
      rw [ih _ (fun j hj => h j (by simp [hj]))]
      simp [hstep, ItemStep.callsOf, ItemStep.errsOf, ItemStep.changedOf]
    | done cs b es =>
      simp only [applyLoop, hstep]
      rw [ih _ (fun j hj => h j (by simp [hj]))]
      simp [hstep, ItemStep.callsOf, ItemStep.errsOf, ItemStep.changedOf,
        Bool.or_assoc]

/-- C4: when no snapshot record is fatally malformed and no `TypeError`
crash occurs, the restore loop completes a full pass: every sorted key
contributes its mutation calls and its error-list entries to the final
result — an `OSError` on one path does not stop the others — the final
error list is exactly the concatenation of the per-path error entries, and
the process exits with `GENERIC_ERROR` when that list is non-empty (only
after the full pass) and with `SUCCESS` otherwise. -/
theorem c4_error_isolation (plat : Plat) (uf : Bool)
    (fs : String → Option FsEntry) (attrs : List (String × RawRecord))
    (cfg : RestoreCfg)
    (h : ∀ k ∈ sortStrings (attrs.map Prod.fst),
        (restoreStep plat uf cfg fs attrs k).isFatal = false) :
    (apply_file_attrs plat uf fs attrs cfg).calls
        = (sortStrings (attrs.map Prod.fst)).flatMap
            (fun k => (restoreStep plat uf cfg fs attrs k).callsOf)
    ∧ (apply_file_attrs plat uf fs attrs cfg).errored
        = (sortStrings (attrs.map Prod.fst)).flatMap
            (fun k => (restoreStep plat uf cfg fs attrs k).errsOf)
    ∧ (apply_file_attrs plat uf fs attrs cfg).exit
        = (if (sortStrings (attrs.map Prod.fst)).flatMap
              (fun k => (restoreStep plat uf cfg fs attrs k).errsOf) = []
           then RunExit.exited SUCCESS else RunExit.exited GENERIC_ERROR) := by
  have hloop := applyLoop_noFatal (restoreStep plat uf cfg fs attrs)
    (sortStrings (attrs.map Prod.fst))
    { calls := [], errored := [], processed := false, halted := none } h
  simp only [apply_file_attrs, hloop, List.nil_append]
  refine ⟨?_, ?_, ?_⟩
  · rw [apply_ite ApplyResult.calls]
    simp
  · rw [apply_ite ApplyResult.errored]
    simp
  · rw [apply_ite ApplyResult.exit]
    by_cases he : (sortStrings (attrs.map Prod.fst)).flatMap
        (fun k => (restoreStep plat uf cfg fs attrs k).errsOf) = []
    · simp [he]
    · simp [List.isEmpty_iff, he]

theorem applyLoop_abort (step : String → ItemStep) (l1 : List String)
    (k : String) (l2 : List String) (st : ApplyState)
    (h1 : ∀ j ∈ l1, (step j).isFatal = false)
    (hk : step k = .abortAttr) :
    applyLoop step (l1 ++ k :: l2) st =
      { calls := st.calls ++ l1.flatMap (fun j => (step j).callsOf),
        errored := st.errored ++ l1.flatMap (fun j => (step j).errsOf),
        processed := st.processed || l1.any (fun j => (step j).changedOf),
        halted := some (.exited ATTRIB_FILE_RELATED) } := by
  induction l1 generalizing st with
  | nil =>
    simp only [List.nil_append, applyLoop, hk]
    cases st
    simp
  | cons j js ih =>
    have hj := h1 j (by simp)
    cases hstep : step j with
    | abortAttr =>
      rw [hstep] at hj
      simp [ItemStep.isFatal] at hj
    | crash cs es =>
      rw [hstep] at hj
      simp [ItemStep.isFatal] at hj
    | skipped =>
      simp only [List.cons_append, applyLoop, hstep]
      erw [ih _ (fun i hi => h1 i (by simp [hi]))]
      simp [hstep, ItemStep.callsOf, ItemStep.errsOf, ItemStep.changedOf]
    | done cs b es =>
      simp only [List.cons_append, applyLoop, hstep]
      erw [ih _ (fun i hi => h1 i (by simp [hi]))]
      simp [hstep, ItemStep.callsOf, ItemStep.errsOf, ItemStep.changedOf,
        Bool.or_assoc]

/-- C7: a snapshot record that matches none of the three accepted shapes is
fatal — when the restore loop, after non-fatal steps on the keys before it,
reaches an existing path whose record fails all three validations, the run
stops there and exits with `ATTRIB_FILE_RELATED`, the recorded calls being
exactly those of the keys already processed; and conversely every record
carrying a complete POSIX key set or a complete Windows key set (the legacy
combined shape contains the POSIX set) is accepted by the discriminator-free
validation cascade, its shape inferred from which keys are present. -/
theorem c7_shape_validation (plat : Plat) (uf : Bool)
    (fs : String → Option FsEntry) (attrs : List (String × RawRecord))
    (cfg : RestoreCfg) (l1 : List String) (k : String) (l2 : List String)
    (r : RawRecord) (entry : FsEntry)
    (hsort : sortStrings (attrs.map Prod.fst) = l1 ++ k :: l2)
    (h1 : ∀ j ∈ l1, (restoreStep plat uf cfg fs attrs j).isFatal = false)
    (hlook : lookupRec attrs k = some r)
    (hfs : fs k = some entry)
    (hval : validateRecord r = none) :
    ((apply_file_attrs plat uf fs attrs cfg).exit = .exited ATTRIB_FILE_RELATED
      ∧ (apply_file_attrs plat uf fs attrs cfg).calls
          = l1.flatMap (fun j => (restoreStep plat uf cfg fs attrs j).callsOf))
    ∧ (∀ r' : RawRecord,
        ((r'.atime.isSome = true ∧ r'.mtime.isSome = true ∧ r'.ctime.isSome = true
            ∧ r'.mode.isSome = true ∧ r'.uid.isSome = true ∧ r'.gid.isSome = true)
          ∨ (r'.atime.isSome = true ∧ r'.mtime.isSome = true
            ∧ r'.ctime.isSome = true ∧ r'.archive.isSome = true
            ∧ r'.hidden.isSome = true ∧ r'.readonly.isSome = true
            ∧ r'.system.isSome = true)) →
        (validateRecord r').isSome = true) := by
  constructor
  · have hk : restoreStep plat uf cfg fs attrs k = .abortAttr := by
      simp [restoreStep, hlook, processItem, hfs, hval]
    have hloop := applyLoop_abort (restoreStep plat uf cfg fs attrs) l1 k l2
      { calls := [], errored := [], processed := false, halted := none } h1 hk
    simp only [apply_file_attrs, hsort, hloop, List.nil_append]
    exact ⟨trivial, trivial⟩
  · intro r' hr'
    rcases hr' with ⟨ha, hm, hc, hmo, hu, hg⟩ | ⟨ha, hm, hc, har, hh, hro, hsy⟩
    · obtain ⟨va, ha⟩ := Option.isSome_iff_exists.mp ha
      obtain ⟨vm, hm⟩ := Option.isSome_iff_exists.mp hm
      obtain ⟨vc, hc⟩ := Option.isSome_iff_exists.mp hc
      obtain ⟨vmo, hmo⟩ := Option.isSome_iff_exists.mp hmo
      obtain ⟨vu, hu⟩ := Option.isSome_iff_exists.mp hu
      obtain ⟨vg, hg⟩ := Option.isSome_iff_exists.mp hg
      simp [validateRecord, validateAttrData, ha, hm, hc, hmo, hu, hg]
    · cases hA : validateAttrData r' with
      | some a => simp [validateRecord, hA]
      | none =>
        obtain ⟨va, ha⟩ := Option.isSome_iff_exists.mp ha
        obtain ⟨vm, hm⟩ := Option.isSome_iff_exists.mp hm
        obtain ⟨vc, hc⟩ := Option.isSome_iff_exists.mp hc
        obtain ⟨var, har⟩ := Option.isSome_iff_exists.mp har
        obtain ⟨vh, hh⟩ := Option.isSome_iff_exists.mp hh
        obtain ⟨vro, hro⟩ := Option.isSome_iff_exists.mp hro
        obtain ⟨vsy, hsy⟩ := Option.isSome_iff_exists.mp hsy
        simp [validateRecord, hA, validateWinAttrData, ha, hm, hc, har, hh,
          hro, hsy]

/-- POSIX record whose uid differs from `sampleStat`. -/
def c4Record : RawRecord :=
  { atime := some (.intNs 7), mtime := some (.intNs 5), ctime := some (.intNs 1),
    mode := some 420, uid := some 1, gid := some 0,
    archive := none, hidden := none, readonly := none, system := none }

/-- Existing file whose OS mutations raise `OSError`. -/
def c4FailEntry : FsEntry :=
  { stat := sampleStat, isLink := false, isDir := false,
    mutationFails := true, winAttrFails := false, setTimesFails := false }

/-- Two-file filesystem: mutating "a" fails, mutating "b" succeeds. -/
def c4Fs : String → Option FsEntry :=
  fun p => if p = "a" then some c4FailEntry
           else if p = "b" then some c8Entry else none

/-- Snapshot requiring a chown on both files. -/
def c4Snapshot : List (String × RawRecord) := [("a", c4Record), ("b", c4Record)]

theorem c4_error_isolation_witness :
    (apply_file_attrs .posix true c4Fs c4Snapshot {}).calls
        = (sortStrings (c4Snapshot.map Prod.fst)).flatMap
            (fun k => (restoreStep .posix true {} c4Fs c4Snapshot k).callsOf)
    ∧ (apply_file_attrs .posix true c4Fs c4Snapshot {}).errored
        = (sortStrings (c4Snapshot.map Prod.fst)).flatMap
            (fun k => (restoreStep .posix true {} c4Fs c4Snapshot k).errsOf)
    ∧ (apply_file_attrs .posix true c4Fs c4Snapshot {}).exit
        = (if (sortStrings (c4Snapshot.map Prod.fst)).flatMap
              (fun k => (restoreStep .posix true {} c4Fs c4Snapshot k).errsOf) = []
           then RunExit.exited SUCCESS else RunExit.exited GENERIC_ERROR) :=
  c4_error_isolation .posix true c4Fs c4Snapshot {} (by decide)

/-- Record matching none of the three shapes (timestamps only). -/
def c7BadRecord : RawRecord :=
  { atime := some (.intNs 1), mtime := some (.intNs 1), ctime := none,
    mode := none, uid := none, gid := none,
    archive := none, hidden := none, readonly := none, system := none }

/-- Two-file filesystem for the abort scenario. -/
def c7Fs : String → Option FsEntry :=
  fun p => if p = "a" then some c8Entry
           else if p = "b" then some c8Entry else none

/-- Snapshot whose second sorted key has the malformed record. -/
def c7Snapshot : List (String × RawRecord) :=
  [("a", get_attrs .posix sampleStat), ("b", c7BadRecord)]

theorem c7_shape_validation_witness :
    ((apply_file_attrs .posix true c7Fs c7Snapshot {}).exit
        = .exited ATTRIB_FILE_RELATED
      ∧ (apply_file_attrs .posix true c7Fs c7Snapshot {}).calls
          = (["a"] : List String).flatMap
              (fun j => (restoreStep .posix true {} c7Fs c7Snapshot j).callsOf))
    ∧ (∀ r' : RawRecord,
        ((r'.atime.isSome = true ∧ r'.mtime.isSome = true ∧ r'.ctime.isSome = true
            ∧ r'.mode.isSome = true ∧ r'.uid.isSome = true ∧ r'.gid.isSome = true)
          ∨ (r'.atime.isSome = true ∧ r'.mtime.isSome = true
            ∧ r'.ctime.isSome = true ∧ r'.archive.isSome = true
            ∧ r'.hidden.isSome = true ∧ r'.readonly.isSome = true
            ∧ r'.system.isSome = true)) →
        (validateRecord r').isSome = true) :=
  c7_shape_validation .posix true c7Fs c7Snapshot {} ["a"] "b" [] c7BadRecord
    c8Entry (by decide) (by decide) (by decide) (by decide) rfl

theorem orIff (a b : Bool) (x y : List MutationCall)
    (ha : a = true ↔ x ≠ []) (hb : b = true ↔ y ≠ []) :
    (a || b) = true ↔ x ++ y ≠ [] := by
  rw [Bool.or_eq_true, ha, hb]
  simp only [ne_eq, List.append_eq_nil]
  tauto

theorem andThen_done_iff (k : String) (calls : List MutationCall)
    (changed : Bool) (errs : List String) (s : SubOutcome)
    (next : List MutationCall → Bool → List String → ResultAttr → ItemStep)
    (cs : List MutationCall) (b : Bool) (es : List String)
    (hacc : changed = true ↔ calls ≠ [])
    (hok : ∀ b1 c1 e1 st1, s = .ok b1 c1 e1 st1 → (b1 = true ↔ c1 ≠ []))
    (hnext : ∀ calls2 changed2 errs2 st', (changed2 = true ↔ calls2 ≠ []) →
        (∃ b1 c1 e1, s = .ok b1 c1 e1 st') →
        next calls2 changed2 errs2 st' = .done cs b es → (b = true ↔ cs ≠ []))
    (h : SubOutcome.andThen k calls changed errs s next = .done cs b es) :
    b = true ↔ cs ≠ [] := by
  cases s with
  | crash => simp [SubOutcome.andThen] at h
  | raised =>
    simp only [SubOutcome.andThen] at h
    injection h with h1 h2 h3
    subst h1
    subst h2
    exact hacc
  | ok b1 c1 e1 st1 =>
    simp only [SubOutcome.andThen] at h
    exact hnext _ _ _ _ (orIff _ _ _ _ hacc (hok b1 c1 e1 st1 rfl))
      ⟨b1, c1, e1, rfl⟩ h

theorem set_uid_gid_ok_iff (entry : FsEntry) (k : String) (stored : ResultAttr)
    (so b : Bool) (cs : List MutationCall) (es : List String) (st' : ResultAttr)
    (h : set_uid_gid entry k stored so = .ok b cs es st') :
    (b = true ↔ cs ≠ []) ∧ st' = stored := by
  revert h
  unfold set_uid_gid
  repeat' split
  all_goals intro h
  all_goals cases h
  all_goals simp

theorem set_permissions_ok_iff (entry : FsEntry) (k : String)
    (stored : ResultAttr) (sp b : Bool) (cs : List MutationCall)
    (es : List String) (st' : ResultAttr)
    (h : set_permissions entry k stored sp = .ok b cs es st') :
    (b = true ↔ cs ≠ []) ∧ st' = stored := by
  revert h
  unfold set_permissions
  repeat' split
  all_goals intro h
  all_goals cases h
  all_goals simp

theorem process_win_attributes_ok_iff (entry : FsEntry) (k : String)
    (stored : ResultAttr) (sa sh sr ss : Bool)
    (hw : entry.winAttrFails = false) (b : Bool) (cs : List MutationCall)
    (es : List String) (st' : ResultAttr)
    (h : process_win_attributes entry k stored sa sh sr ss = .ok b cs es st') :
    (b = true ↔ cs ≠ []) ∧ st' = stored := by
  revert h
  unfold process_win_attributes
  by_cases hc : (stored.archive_changed && !sa || stored.hidden_changed && !sh
      || stored.readonly_changed && !sr || stored.system_changed && !ss) = true
  · rw [if_pos hc, if_neg (by rw [hw]; simp)]
    intro h
    cases h
    simp
  · rw [if_neg hc]
    intro h
    cases h
    simp

theorem set_timestamps_ok_iff (plat : Plat) (entry : FsEntry) (k : String)
    (stored : ResultAttr) (sm sc sa : Bool)
    (hctime : plat = .posix → stored.ctime_changed = false)
    (hfail : entry.setTimesFails = false) (b : Bool) (cs : List MutationCall)
    (es : List String) (st' : ResultAttr)
    (h : set_timestamps plat entry k stored sm sc sa = .ok b cs es st') :
    b = true ↔ cs ≠ [] := by
  cases plat
  · revert h
    unfold set_timestamps
    try simp only []
    repeat' split
    all_goals intro h
    all_goals cases h
    all_goals simp_all
  · have hc := hctime rfl
    revert h
    unfold set_timestamps
    try simp only []
    repeat' split
    all_goals intro h
    all_goals cases h
    all_goals simp_all

theorem copy_creation_to_accessed_ok_iff (entry : FsEntry) (k : String)
    (stored : ResultAttr) (cta b : Bool) (cs : List MutationCall)
    (es : List String) (st' : ResultAttr)
    (h : copy_creation_to_accessed entry k stored cta = .ok b cs es st') :
    b = true ↔ cs ≠ [] := by
  revert h
  unfold copy_creation_to_accessed
  repeat' split
  all_goals intro h
  all_goals cases h
  all_goals simp

theorem get_attr_for_restore_posix_ctime_changed (attr : ParsedAttr)
    (st : StatInfo) (sc : Bool) :
    (get_attr_for_restore .posix attr st sc).ctime_changed = false := by
  cases attr <;> simp [get_attr_for_restore]

/-- C9 (amended): for a path that exists and is processed, the per-item body
reports the path as processed if and only if at least one mutation call was
issued for it, provided the attempted Windows flag and timestamp writes do
not fail — a failing `SetFileAttributesW` or `SetFileTime` call still
reports the path as processed although nothing was mutated (see the
counterexample). -/
theorem c9_applied_iff_mutation (plat : Plat) (uf : Bool) (cfg : RestoreCfg)
    (fs : String → Option FsEntry) (k : String) (r : RawRecord)
    (entry : FsEntry)
    (hfs : fs k = some entry)
    (hw : entry.winAttrFails = false)
    (hsf : entry.setTimesFails = false)
    (cs : List MutationCall) (b : Bool) (es : List String)
    (hstep : processItem plat uf cfg fs k r = .done cs b es) :
    b = true ↔ cs ≠ [] := by
  unfold processItem at hstep
  rw [hfs] at hstep
  cases hv : validateRecord r with
  | none =>
    rw [hv] at hstep
    simp at hstep
  | some attr =>
    rw [hv] at hstep
    by_cases hex : excludedAtRestore cfg entry k = true
    · simp [hex] at hstep
    · simp only [hex, Bool.false_eq_true, if_false, if_neg] at hstep
      split at hstep
      · cases plat
        · -- windows chain
          refine andThen_done_iff _ _ _ _ _ _ _ _ _ (by simp) ?_ ?_ hstep
          · intro b1 c1 e1 st1 h1
            split at h1
            · exact (process_win_attributes_ok_iff _ _ _ _ _ _ _ hw _ _ _ _ h1).1
            · cases h1
              simp
          · intro c2 b2 e2 st1 hacc2 _ hstep2
            refine andThen_done_iff _ _ _ _ _ _ _ _ _ hacc2 ?_ ?_ hstep2
            · intro b1 c1 e1 st2 h1
              exact set_timestamps_ok_iff .windows _ _ _ _ _ _
                (fun hpw => Plat.noConfusion hpw) hsf _ _ _ _ h1
            · intro c3 b3 e3 st2 hacc3 _ hstep3
              refine andThen_done_iff _ _ _ _ _ _ _ _ _ hacc3 ?_ ?_ hstep3
              · intro b1 c1 e1 st3 h1
                exact copy_creation_to_accessed_ok_iff _ _ _ _ _ _ _ _ h1
              · intro c4 b4 e4 st3 hacc4 _ hstep4
                injection hstep4 with h1 h2 h3
                subst h1
                subst h2
                exact hacc4
        · -- posix chain
          refine andThen_done_iff _ _ _ _ _ _ _ _ _ (by simp) ?_ ?_ hstep
          · intro b1 c1 e1 st1 h1
            exact (set_uid_gid_ok_iff _ _ _ _ _ _ _ _ h1).1
          · intro c2 b2 e2 st1 hacc2 hex1 hstep2
            obtain ⟨b1, c1, e1, h1⟩ := hex1
            have hst1 := (set_uid_gid_ok_iff _ _ _ _ _ _ _ _ h1).2
            refine andThen_done_iff _ _ _ _ _ _ _ _ _ hacc2 ?_ ?_ hstep2
            · intro b1' c1' e1' st2 h2
              exact (set_permissions_ok_iff _ _ _ _ _ _ _ _ h2).1
            · intro c3 b3 e3 st2 hacc3 hex2 hstep3
              obtain ⟨b1', c1', e1', h2⟩ := hex2
              have hst2 := (set_permissions_ok_iff _ _ _ _ _ _ _ _ h2).2
              refine andThen_done_iff _ _ _ _ _ _ _ _ _ hacc3 ?_ ?_ hstep3
              · intro b1'' c1'' e1'' st3 h3
                refine set_timestamps_ok_iff .posix _ _ _ _ _ _
                  (fun _ => ?_) hsf _ _ _ _ h3
                rw [hst2, hst1]
                exact get_attr_for_restore_posix_ctime_changed attr entry.stat
                  cfg.skip_creation
              · intro c4 b4 e4 st3 hacc4 _ hstep4
                refine andThen_done_iff _ _ _ _ _ _ _ _ _ hacc4 ?_ ?_ hstep4
                · intro b1'' c1'' e1'' st4 h4
                  exact copy_creation_to_accessed_ok_iff _ _ _ _ _ _ _ _ h4
                · intro c5 b5 e5 st4 hacc5 _ hstep5
                  injection hstep5 with h1' h2' h3'
                  subst h1'
                  subst h2'
                  exact hacc5
      · simp at hstep

theorem c9_applied_iff_mutation_witness :
    true = true ↔ ([MutationCall.chown "a.txt" 1 0] : List MutationCall) ≠ [] :=
  c9_applied_iff_mutation .posix true {} c8Fs "a.txt" c4Record c8Entry
    (by decide) (by decide) (by decide)
    [MutationCall.chown "a.txt" 1 0] true [] (by decide)

/-- Existing file whose `SetFileAttributesW` round-trip fails. -/
def c9Entry : FsEntry :=
  { stat := sampleStat, isLink := false, isDir := false,
    mutationFails := false, winAttrFails := true, setTimesFails := false }

/-- Windows record whose four flags differ from the live bitmask while the
timestamps match it. -/
def c9Record : RawRecord :=
  { atime := some (.intNs 7), mtime := some (.intNs 5), ctime := some (.intNs 1),
    mode := none, uid := none, gid := none,
    archive := some false, hidden := some false, readonly := some false,
    system := some false }

/-- C9 counterexample to the claim as stated: when the Windows
flag-mutation call fails, `process_win_attributes` still returns `True`, so
the path is reported as processed (`applied = true`) although no attribute
was actually mutated — the run's `processed` flag is set while its mutation
trace is empty. -/
theorem c9_counterexample :
    (apply_file_attrs .windows true
        (fun p => if p = "w" then some c9Entry else none)
        [("w", c9Record)] {}).processed = true
    ∧ (apply_file_attrs .windows true
        (fun p => if p = "w" then some c9Entry else none)
        [("w", c9Record)] {}).calls = [] := by
  constructor <;> decide

theorem subEntries_eq_list (b : List String) (n : FsNode) :
    subEntries b n = subEntriesList b n.children := by
  cases n <;> rfl

theorem szNodes_children_lt (c : FsNode) : szNodes c.children < c.sz := by
  cases c <;> simp [FsNode.children, FsNode.sz, szNodes]

theorem szNodes_pos_head (c : FsNode) (cs : List FsNode) :
    szNodes cs < szNodes (c :: cs) := by
  have := c.sz_pos
  simp only [szNodes]
  omega

theorem szNodes_children_lt_cons (c : FsNode) (cs : List FsNode) :
    szNodes c.children < szNodes (c :: cs) := by
  have h1 := szNodes_children_lt c
  simp only [szNodes]
  omega

theorem wfNodesB_mem (cs : List FsNode) (c : FsNode) (h : wfNodesB cs = true)
    (hc : c ∈ cs) : c.wfB = true := by
  induction cs with
  | nil => simp at hc
  | cons c0 rest ih =>
    simp only [wfNodesB, Bool.and_eq_true] at h
    rcases List.mem_cons.mp hc with rfl | hc
    · exact h.1
    · exact ih h.2 hc

theorem wfB_children (c : FsNode) (h : c.wfB = true) :
    (c.children.map FsNode.name).Nodup ∧ wfNodesB c.children = true := by
  cases c with
  | file nm => exact ⟨List.nodup_nil, rfl⟩
  | link nm b => exact ⟨List.nodup_nil, rfl⟩
  | dir nm cs =>
    simp only [FsNode.wfB, Bool.and_eq_true, decide_eq_true_eq] at h
    exact ⟨h.1, h.2⟩

theorem subEntriesList_self_child (cs : List FsNode) (b : List String)
    (c : FsNode) (hc : c ∈ cs) : (b ++ [c.name], c) ∈ subEntriesList b cs := by
  induction cs with
  | nil => simp at hc
  | cons c0 rest ih =>
    simp only [subEntriesList, List.mem_cons, List.mem_append]
    rcases List.mem_cons.mp hc with rfl | hc
    · left
      rfl
    · right
      right
      exact ih hc

theorem subEntriesList_child : ∀ (cs : List FsNode) (b : List String)
    (e : WalkEntry) (c : FsNode),
    e ∈ subEntriesList b cs → c ∈ e.2.children →
    (e.1 ++ [c.name], c) ∈ subEntriesList b cs
  | [], _, _, _ => by
    intro he _
    simp [subEntriesList] at he
  | c0 :: rest, b, e, c => by
    intro he hc
    simp only [subEntriesList, List.mem_cons, List.mem_append] at he ⊢
    rcases he with rfl | he | he
    · right
      left
      rw [subEntries_eq_list]
      exact subEntriesList_self_child c0.children (b ++ [c0.name]) c hc
    · right
      left
      rw [subEntries_eq_list] at he ⊢
      exact subEntriesList_child c0.children (b ++ [c0.name]) e c he hc
    · right
      right
      exact subEntriesList_child rest b e c he hc
termination_by cs => szNodes cs
decreasing_by
  · exact szNodes_children_lt_cons c0 rest
  · exact szNodes_pos_head c0 rest

theorem subEntriesList_shape : ∀ (cs : List FsNode) (b : List String)
    (e : WalkEntry), e ∈ subEntriesList b cs →
    ∃ nm rest, e.1 = b ++ nm :: rest
  | [], _, _ => by
    intro he
    simp [subEntriesList] at he
  | c0 :: rest, b, e => by
    intro he
    simp only [subEntriesList, List.mem_cons, List.mem_append] at he
    rcases he with rfl | he | he
    · exact ⟨c0.name, [], rfl⟩
    · rw [subEntries_eq_list] at he
      obtain ⟨nm, r, hr⟩ := subEntriesList_shape c0.children (b ++ [c0.name]) e he
      exact ⟨c0.name, nm :: r, by simp [hr]⟩
    · exact subEntriesList_shape rest b e he
termination_by cs => szNodes cs
decreasing_by
  · exact szNodes_children_lt_cons c0 rest
  · exact szNodes_pos_head c0 rest

theorem subEntriesList_factor : ∀ (cs : List FsNode) (b : List String)
    (e : WalkEntry), e ∈ subEntriesList b cs →
    ∃ c' ∈ cs, ∃ tail, e.1 = b ++ c'.name :: tail ∧
      ((tail = [] ∧ e = (b ++ [c'.name], c'))
        ∨ (tail ≠ [] ∧ e ∈ subEntriesList (b ++ [c'.name]) c'.children))
  | [], _, _ => by
    intro he
    simp [subEntriesList] at he
  | c0 :: rest, b, e => by
    intro he
    simp only [subEntriesList, List.mem_cons, List.mem_append] at he
    rcases he with rfl | he | he
    · exact ⟨c0, by simp, [], rfl, Or.inl ⟨rfl, rfl⟩⟩
    · rw [subEntries_eq_list] at he
      obtain ⟨nm, r, hr⟩ := subEntriesList_shape c0.children (b ++ [c0.name]) e he
      exact ⟨c0, by simp, nm :: r, by simp [hr], Or.inr ⟨by simp, he⟩⟩
    · obtain ⟨c', hc', tail, htail, hcase⟩ := subEntriesList_factor rest b e he
      exact ⟨c', by simp [hc'], tail, htail, hcase⟩
termination_by cs => szNodes cs
decreasing_by
  · exact szNodes_pos_head c0 rest

theorem szNodes_mem_le (cs : List FsNode) (c : FsNode) (hc : c ∈ cs) :
    c.sz ≤ szNodes cs := by
  induction cs with
  | nil => simp at hc
  | cons c0 rest ih =>
    simp only [szNodes]
    rcases List.mem_cons.mp hc with rfl | hc
    · omega
    · have := ih hc
      omega

theorem szNodes_mem_children_lt (cs : List FsNode) (c : FsNode) (hc : c ∈ cs) :
    szNodes c.children < szNodes cs := by
  have h1 := szNodes_children_lt c
  have h2 := szNodes_mem_le cs c hc
  omega

theorem subEntriesList_inj : ∀ (cs : List FsNode) (b : List String),
    (cs.map FsNode.name).Nodup → wfNodesB cs = true →
    ∀ e1 e2, e1 ∈ subEntriesList b cs → e2 ∈ subEntriesList b cs →
    e1.1 = e2.1 → e1 = e2
  | cs, b => by
    intro hnd hwf e1 e2 he1 he2 hpath
    obtain ⟨c1, hc1, t1, ht1, hcase1⟩ := subEntriesList_factor cs b e1 he1
    obtain ⟨c2, hc2, t2, ht2, hcase2⟩ := subEntriesList_factor cs b e2 he2
    have hct : c1.name :: t1 = c2.name :: t2 := by
      rw [ht1, ht2] at hpath
      exact List.append_cancel_left hpath
    have hname : c1.name = c2.name := by
      injection hct with h1 h2
    have htt : t1 = t2 := by
      injection hct with h1 h2
    have hc12 : c1 = c2 := List.inj_on_of_nodup_map hnd hc1 hc2 hname
    subst hc12
    rcases hcase1 with ⟨hT1, hE1⟩ | ⟨hT1, hE1⟩
    · rcases hcase2 with ⟨hT2, hE2⟩ | ⟨hT2, hE2⟩
      · rw [hE1, hE2]
      · exact absurd (htt.symm.trans hT1) hT2
    · rcases hcase2 with ⟨hT2, hE2⟩ | ⟨hT2, hE2⟩
      · exact absurd (htt.trans hT2) hT1
      · have hwf1 := wfB_children c1 (wfNodesB_mem cs c1 hwf hc1)
        exact subEntriesList_inj c1.children (b ++ [c1.name]) hwf1.1 hwf1.2
          e1 e2 hE1 hE2 hpath
termination_by cs => szNodes cs
decreasing_by
  · exact szNodes_mem_children_lt cs c1 hc1

theorem scandirE_mem (e q : WalkEntry) (h : q ∈ scandirE e) :
    ∃ c ∈ e.2.children, q = (e.1 ++ [c.name], c) := by
  simp only [scandirE, List.mem_map] at h
  obtain ⟨c, hc, hq⟩ := h
  exact ⟨c, hc, hq.symm⟩

theorem childItems_mem (m : String → Bool) (ic skipLinks : Bool)
    (e q : WalkEntry) (h : q ∈ childItems (some m) ic skipLinks e) :
    q ∈ scandirE e ∧ m (candidateOf ic q) = false := by
  simp only [childItems, get_non_excluded_items, List.mem_filter,
    Bool.and_eq_true, Bool.not_eq_true'] at h
  exact ⟨h.1, h.2.2⟩

theorem expandLevel_mem (mo : Option (String → Bool)) (ic skipLinks : Bool)
    (level : List WalkEntry) (q : WalkEntry)
    (h : q ∈ expandLevel mo ic skipLinks level) :
    ∃ e ∈ level, e.2.isRealDir = true ∧ q ∈ childItems mo ic skipLinks e := by
  simp only [expandLevel, List.mem_flatMap] at h
  obtain ⟨e, he, hq⟩ := h
  by_cases hd : e.2.isRealDir = true
  · rw [if_pos hd] at hq
    exact ⟨e, he, hd, hq⟩
  · rw [if_neg hd] at hq
    simp at hq

theorem bfsLoop_invariant (P : WalkEntry → Prop) (mo : Option (String → Bool))
    (ic skipLinks : Bool)
    (hstep : ∀ e q, P e → e.2.isRealDir = true →
      q ∈ childItems mo ic skipLinks e → P q) :
    ∀ (n : Nat) (level : List WalkEntry), szEntries level ≤ n →
      (∀ e ∈ level, P e) → ∀ q ∈ bfsLoop mo ic skipLinks level, P q := by
  intro n
  induction n using Nat.strong_induction_on with
  | _ n ih =>
    intro level hsz hP q hq
    rw [bfsLoop] at hq
    by_cases ht : (expandLevel mo ic skipLinks level).isEmpty = true
    · rw [dif_pos ht] at hq
      simp at hq
    · rw [dif_neg ht] at hq
      have hPt : ∀ e ∈ expandLevel mo ic skipLinks level, P e := by
        intro e he
        obtain ⟨e0, he0, hd, hci⟩ := expandLevel_mem mo ic skipLinks level e he
        exact hstep e0 e (hP e0 he0) hd hci
      rcases List.mem_append.mp hq with h1 | h1
      · exact hPt q h1
      · have hne : level ≠ [] := by
          intro hl
          apply ht
          rw [hl]
          rfl
        have hlt := szEntries_expandLevel_lt mo ic skipLinks level hne
        exact ih (szEntries (expandLevel mo ic skipLinks level))
          (by omega) _ (le_refl _) hPt q h1

theorem get_paths_invariant (P : WalkEntry → Prop) (mo : Option (String → Bool))
    (ic skipLinks : Bool) (root : FsNode)
    (h0 : ∀ q ∈ childItems mo ic skipLinks ([], root), P q)
    (hstep : ∀ e q, P e → e.2.isRealDir = true →
      q ∈ childItems mo ic skipLinks e → P q) :
    ∀ q ∈ get_paths mo ic skipLinks root, P q := by
  intro q hq
  simp only [get_paths] at hq
  rcases List.mem_append.mp hq with h1 | h1
  · exact h0 q h1
  · exact bfsLoop_invariant P mo ic skipLinks hstep
      (szEntries (childItems mo ic skipLinks ([], root))) _ (le_refl _) h0 q h1

theorem prefix_snoc {α : Type} (p l : List α) (a : α)
    (h : p <+: l ++ [a]) : p <+: l ∨ p = l ++ [a] := by
  obtain ⟨t, ht⟩ := h
  rcases t.eq_nil_or_concat with rfl | ⟨t2, b, rfl⟩
  · right
    rw [List.append_nil] at ht
    exact ht
  · left
    rw [List.concat_eq_append, ← List.append_assoc] at ht
    exact ⟨t2, (List.append_inj' ht rfl).1⟩

theorem collectLoop_keys : ∀ (items : List (String × Option RawRecord))
    (acc : List (String × RawRecord)) (consec : Nat),
    ∀ key ∈ (collectLoop items acc consec).attrs.map Prod.fst,
      key ∈ acc.map Prod.fst ++ items.map Prod.fst
  | [], acc, consec => by
    intro key hk
    simp only [collectLoop] at hk
    simp only [List.map_nil, List.append_nil]
    exact hk
  | (p, ro) :: rest, acc, consec => by
    intro key hk
    simp only [collectLoop] at hk
    by_cases hc : consec = 10
    · rw [if_pos hc] at hk
      exact List.mem_append.mpr (.inl hk)
    · rw [if_neg hc] at hk
      simp only [List.map_cons]
      cases ro with
      | some r =>
        have hrec := collectLoop_keys rest (acc ++ [(p, r)]) 0 key hk
        rcases List.mem_append.mp hrec with ha | hb
        · rw [List.map_append] at ha
          rcases List.mem_append.mp ha with ha1 | ha2
          · exact List.mem_append.mpr (.inl ha1)
          · simp only [List.map_cons, List.map_nil, List.mem_singleton] at ha2
            exact List.mem_append.mpr (.inr (List.mem_cons.mpr (.inl ha2)))
        · exact List.mem_append.mpr (.inr (List.mem_cons.mpr (.inr hb)))
      | none =>
        have hrec := collectLoop_keys rest acc 1 key hk
        rcases List.mem_append.mp hrec with ha | hb
        · exact List.mem_append.mpr (.inl ha)
        · exact List.mem_append.mpr (.inr (List.mem_cons.mpr (.inr hb)))

/-- C3: for any entry `pe` of the scanned tree that the compiled exclusion
rules match as a directory (trailing-separator candidate), neither `pe` nor
any descendant of `pe` is visited by `get_paths` — the filter runs on each
child before recursion, so the excluded directory is never expanded — and
consequently no key of the snapshot built by `collect_file_attrs` lies at or
below `pe`: every snapshot key is the rendering of a visited path, and no
visited path has `pe`'s path as a prefix. -/
theorem c3_exclusion_monotonicity (m : String → Bool) (ic skipLinks : Bool)
    (root : FsNode) (p : List String) (pe : WalkEntry)
    (oracle : WalkEntry → Option RawRecord)
    (hwf : root.wfB = true)
    (hmem : pe ∈ subEntries [] root)
    (hpath : pe.1 = p)
    (hdir : pe.2.isRealDir = true)
    (hexcl : m (candidateOf ic pe) = true) :
    (∀ e ∈ get_paths (some m) ic skipLinks root, p.isPrefixOf e.1 = false)
    ∧ (∀ key ∈ (collect_file_attrs ((get_paths (some m) ic skipLinks root).map
          (fun e => (renderP e.1, oracle e)))).attrs.map Prod.fst,
        key ∈ (get_paths (some m) ic skipLinks root).map (fun e => renderP e.1)) := by
  have hmem' : pe ∈ subEntriesList [] root.children := by
    rw [← subEntries_eq_list]
    exact hmem
  obtain ⟨hnd, hwfn⟩ := wfB_children root hwf
  have hpne : p ≠ [] := by
    obtain ⟨nm, r, hr⟩ := subEntriesList_shape root.children [] pe hmem'
    rw [hpath, List.nil_append] at hr
    intro hp0
    rw [hp0] at hr
    exact List.noConfusion hr
  have hkey : ∀ q, q ∈ subEntriesList [] root.children →
      m (candidateOf ic q) = false → q.1 ≠ p := by
    intro q hq hm hqp
    have hqe : q = pe :=
      subEntriesList_inj root.children [] hnd hwfn q pe hq hmem'
        (hqp.trans hpath.symm)
    rw [hqe, hexcl] at hm
    exact Bool.noConfusion hm
  have hinv : ∀ q ∈ get_paths (some m) ic skipLinks root,
      q ∈ subEntriesList [] root.children ∧ p.isPrefixOf q.1 = false := by
    refine get_paths_invariant
      (fun q => q ∈ subEntriesList [] root.children ∧ p.isPrefixOf q.1 = false)
      (some m) ic skipLinks root ?_ ?_
    · intro q hq
      obtain ⟨hscan, hm⟩ := childItems_mem m ic skipLinks ([], root) q hq
      obtain ⟨c, hc, hqe⟩ := scandirE_mem ([], root) q hscan
      have hmemq : q ∈ subEntriesList [] root.children := by
        rw [hqe]
        exact subEntriesList_self_child root.children [] c hc
      refine ⟨hmemq, ?_⟩
      cases hb : p.isPrefixOf q.1 with
      | false => rfl
      | true =>
        exfalso
        rw [List.isPrefixOf_iff_prefix, hqe] at hb
        have hb2 : p <+: [] ++ [c.name] := hb
        rcases prefix_snoc p [] c.name hb2 with hple | hpeq
        · rw [List.prefix_nil] at hple
          exact hpne hple
        · exact hkey q hmemq hm (by rw [hqe]; exact hpeq.symm)
    · intro e q hPe hd hq
      obtain ⟨heSL, hepre⟩ := hPe
      obtain ⟨hscan, hm⟩ := childItems_mem m ic skipLinks e q hq
      obtain ⟨c, hc, hqe⟩ := scandirE_mem e q hscan
      have hmemq : q ∈ subEntriesList [] root.children := by
        rw [hqe]
        exact subEntriesList_child root.children [] e c heSL hc
      refine ⟨hmemq, ?_⟩
      cases hb : p.isPrefixOf q.1 with
      | false => rfl
      | true =>
        exfalso
        rw [List.isPrefixOf_iff_prefix, hqe] at hb
        have hb2 : p <+: e.1 ++ [c.name] := hb
        rcases prefix_snoc p e.1 c.name hb2 with hple | hpeq
        · rw [← List.isPrefixOf_iff_prefix] at hple
          rw [hepre] at hple
          exact Bool.noConfusion hple
        · exact hkey q hmemq hm (by rw [hqe]; exact hpeq.symm)
  constructor
  · intro e he
    exact (hinv e he).2
  · intro key hk
    simp only [collect_file_attrs] at hk
    have hsub := collectLoop_keys ((get_paths (some m) ic skipLinks root).map
      (fun e => (renderP e.1, oracle e))) [] 0 key hk
    simp only [List.map_nil, List.nil_append, List.map_map] at hsub
    simpa [Function.comp] using hsub

/-- Witness tree: working directory containing directory `b` (with file `x`
inside) and file `a`. -/
def c3Root : FsNode :=
  FsNode.dir "root" [FsNode.dir "b" [FsNode.file "x"], FsNode.file "a"]

/-- Witness matcher: the compiled pattern set excluding exactly the
directory `b` (directory-level pattern, hence the trailing separator). -/
def c3m : String → Bool := fun s => s == "b/"

theorem c3_exclusion_monotonicity_witness :
    (c3Root.wfB = true
      ∧ (["b"], FsNode.dir "b" [FsNode.file "x"]) ∈ subEntries [] c3Root
      ∧ (FsNode.dir "b" [FsNode.file "x"]).isRealDir = true
      ∧ c3m (candidateOf false (["b"], FsNode.dir "b" [FsNode.file "x"])) = true)
    ∧ ((∀ e ∈ get_paths (some c3m) false false c3Root,
          ["b"].isPrefixOf e.1 = false)
      ∧ ∀ key ∈ (collect_file_attrs ((get_paths (some c3m) false false c3Root).map
            (fun e => (renderP e.1, (none : Option RawRecord))))).attrs.map Prod.fst,
          key ∈ (get_paths (some c3m) false false c3Root).map (fun e => renderP e.1)) :=
  ⟨⟨by decide, by decide, by decide, by decide⟩,
    c3_exclusion_monotonicity c3m false false c3Root ["b"]
      (["b"], FsNode.dir "b" [FsNode.file "x"]) (fun _ => none)
      (by decide) (by decide) rfl (by decide) (by decide)⟩
